import Mathlib

/-!
Verification of the HUB caching reverse proxy (greeddj/hub).

This file shallow-embeds the core of the repository — the conditional
fetcher `misc.DownloadFileConditional`, the Cargo / npm / Go-proxy /
RubyGems request handlers, the npm packument rewriter and the Cargo
API header pass-through — as executable Lean definitions, and proves
the behavioural claims of the specification against them.

Conventions of the embedding:
* Go strings are Lean `String`s; file contents are `String`s.
* Machine integers (timestamps) are `Int`; no overflow is relevant.
* Filesystem and network effects are made explicit: handlers return a
  response record together with the list of upstream calls they issued
  and the trace of filesystem operations they performed.  Outcomes of
  external effects (HTTP responses, fs failures) enter as explicit
  oracle records, so every code path of the Go source is a reachable
  branch of the Lean function.
-/

namespace Hub

/-! ### Go string primitives (strings.TrimPrefix / TrimSuffix / Contains)

All string functions are built over `List Char` so that every
definition reduces inside the kernel (Lean's own `String.splitOn`,
`startsWith`, `trim` are well-founded recursions that do not). -/

/-- `String.startsWith` via character lists. -/
def strStartsWith (s pre : String) : Bool :=
  pre.data.isPrefixOf s.data

/-- `String.endsWith` via character lists. -/
def strEndsWith (s suf : String) : Bool :=
  suf.data.isSuffixOf s.data

/-- Core of `splitOn`: split a character list at every non-overlapping
occurrence of the non-empty separator `s0 :: srest`, left to right.
Structural recursion on a fuel counter (always at least the list
length plus one, so the fuel never runs out) keeps it kernel-reducible. -/
def splitOnFuel (s0 : Char) (srest : List Char) : Nat → List Char → List Char → List (List Char)
  | 0, acc, rest => [acc.reverse ++ rest]
  | _ + 1, acc, [] => [acc.reverse]
  | fuel + 1, acc, c :: rest =>
    if (s0 :: srest).isPrefixOf (c :: rest) then
      acc.reverse :: splitOnFuel s0 srest fuel [] (List.drop srest.length rest)
    else
      splitOnFuel s0 srest fuel (c :: acc) rest

/-- `String.splitOn` via character lists (empty separator yields the
whole string, like Go's and Lean's `splitOn`). -/
def strSplitOn (s sep : String) : List String :=
  match sep.data with
  | [] => [s]
  | s0 :: srest => (splitOnFuel s0 srest (s.data.length + 1) [] s.data).map List.asString

/-- `strings.TrimSpace` / `String.trim` via character lists. -/
def strTrim (s : String) : String :=
  ⟨((s.data.dropWhile Char.isWhitespace).reverse.dropWhile Char.isWhitespace).reverse⟩

/-- Go `strings.TrimPrefix`. -/
def trimPrefixStr (s pre : String) : String :=
  if strStartsWith s pre then ⟨s.data.drop pre.data.length⟩ else s

/-- Go `strings.TrimSuffix`. -/
def trimSuffixStr (s suf : String) : String :=
  if strEndsWith s suf then ⟨s.data.take (s.data.length - suf.data.length)⟩ else s

/-- Go `strings.Contains` (substring test), via `splitOn`. -/
def strContains (s sub : String) : Bool :=
  sub = "" || (strSplitOn s sub).length > 1

/-- Split `s` at the first occurrence of `sep`; `none` if `sep` does not
occur (or is empty). -/
def splitFirst (s sep : String) : Option (String × String) :=
  if sep = "" then none
  else
    match strSplitOn s sep with
    | [] => none
    | [_] => none
    | a :: rest => some (a, String.intercalate sep rest)

/-! ### Go lexical path cleaning (`path.Clean` / `filepath.Clean` on slash
paths), `filepath.Base`, `filepath.Dir`, `filepath.Join` -/

/-- Core of Go `path.Clean`: process the slash-separated segments left to
right keeping a stack (head = most recent segment).  `rooted` tells
whether the path was absolute, in which case leading `..` segments are
dropped. -/
def goCleanCore (rooted : Bool) : List String → List String → List String
  | stack, [] => stack.reverse
  | stack, s :: rest =>
    if s = "" || s = "." then goCleanCore rooted stack rest
    else if s = ".." then
      match stack with
      | [] =>
        if rooted then goCleanCore rooted [] rest
        else goCleanCore rooted [".."] rest
      | t :: tl =>
        if t = ".." then goCleanCore rooted (".." :: t :: tl) rest
        else goCleanCore rooted tl rest
    else goCleanCore rooted (s :: stack) rest

/-- Go `path.Clean` (equivalently `filepath.Clean` with `/` separators):
collapse duplicate separators, eliminate `.` elements, eliminate inner
`..` together with the preceding element, eliminate `..` at the start of
a rooted path; empty result becomes `"."` (or `"/"` when rooted). -/
def goPathClean (p : String) : String :=
  if p = "" then "."
  else
    let rooted := strStartsWith p "/"
    let stack := goCleanCore rooted [] (strSplitOn p "/")
    let out := String.intercalate "/" stack
    if rooted then
      if out = "" then "/" else "/" ++ out
    else
      if out = "" then "." else out

/-- Go `filepath.Base`: last element of the path after dropping trailing
separators; `"."` for the empty path, `"/"` for an all-separator path. -/
def goBase (p : String) : String :=
  if p = "" then "."
  else
    match ((strSplitOn p "/").filter (fun s => s ≠ "")).getLast? with
    | some s => s
    | none => if strStartsWith p "/" then "/" else "."

/-- Go `filepath.Dir`: everything up to the final separator, cleaned;
`"."` when the path holds no separator. -/
def goDir (p : String) : String :=
  let parts := strSplitOn p "/"
  if parts.length ≤ 1 then "."
  else goPathClean (String.intercalate "/" parts.dropLast ++ "/")

/-- Go `filepath.Join` of two elements: empty elements are ignored, the
rest are joined with `/` and cleaned. -/
def goJoin (a b : String) : String :=
  if a = "" then if b = "" then "" else goPathClean b
  else if b = "" then goPathClean a
  else goPathClean (a ++ "/" ++ b)

/-- Go `filepath.Join` of a list of elements. -/
def goJoinList (elems : List String) : String :=
  match elems with
  | [] => ""
  | e :: rest => rest.foldl goJoin e

/-- The wildcard normalization every handler performs:
`strings.TrimPrefix(path.Clean("/" + strings.TrimPrefix(raw, "/")), "/")`. -/
def cleanWildcard (raw : String) : String :=
  trimPrefixStr (goPathClean ("/" ++ trimPrefixStr raw "/")) "/"

/-! ### Hex, percent-decoding (`url.PathUnescape`) and SHA-256
(`crypto/sha256` + `encoding/hex`) -/

/-- Value of a hexadecimal digit. -/
def hexVal (c : Char) : Option Nat :=
  if '0' ≤ c ∧ c ≤ '9' then some (c.toNat - '0'.toNat)
  else if 'a' ≤ c ∧ c ≤ 'f' then some (c.toNat - 'a'.toNat + 10)
  else if 'A' ≤ c ∧ c ≤ 'F' then some (c.toNat - 'A'.toNat + 10)
  else none

/-- Lowercase hex digit of a value below 16. -/
def hexDigit (n : Nat) : Char :=
  if n < 10 then Char.ofNat ('0'.toNat + n)
  else Char.ofNat ('a'.toNat + (n - 10))

/-- A byte as two lowercase hex digits (`encoding/hex`). -/
def byteToHex (b : Nat) : List Char :=
  [hexDigit (b / 16 % 16), hexDigit (b % 16)]

/-- Lowercase hex encoding of a byte sequence (`hex.EncodeToString`). -/
def hexEncode (bs : List Nat) : String :=
  ⟨(bs.map byteToHex).flatten⟩

/-- Go `url.PathUnescape` on the character level: decode each `%XY` hex
pair, fail on a malformed escape. -/
def pathUnescapeChars : List Char → Option (List Char)
  | [] => some []
  | '%' :: a :: b :: rest => do
    let ha ← hexVal a
    let hb ← hexVal b
    let tail ← pathUnescapeChars rest
    pure (Char.ofNat (16 * ha + hb) :: tail)
  | '%' :: _ => none
  | c :: rest => (pathUnescapeChars rest).map (c :: ·)

/-- Go `url.PathUnescape`. -/
def pathUnescape (s : String) : Option String :=
  (pathUnescapeChars s.data).map List.asString

/-- SHA-256 round constants (FIPS 180-4). -/
def sha256K : List Nat :=
  [0x428A2F98, 0x71374491, 0xB5C0FBCF, 0xE9B5DBA5, 0x3956C25B, 0x59F111F1, 0x923F82A4, 0xAB1C5ED5,
   0xD807AA98, 0x12835B01, 0x243185BE, 0x550C7DC3, 0x72BE5D74, 0x80DEB1FE, 0x9BDC06A7, 0xC19BF174,
   0xE49B69C1, 0xEFBE4786, 0x0FC19DC6, 0x240CA1CC, 0x2DE92C6F, 0x4A7484AA, 0x5CB0A9DC, 0x76F988DA,
   0x983E5152, 0xA831C66D, 0xB00327C8, 0xBF597FC7, 0xC6E00BF3, 0xD5A79147, 0x06CA6351, 0x14292967,
   0x27B70A85, 0x2E1B2138, 0x4D2C6DFC, 0x53380D13, 0x650A7354, 0x766A0ABB, 0x81C2C92E, 0x92722C85,
   0xA2BFE8A1, 0xA81A664B, 0xC24B8B70, 0xC76C51A3, 0xD192E819, 0xD6990624, 0xF40E3585, 0x106AA070,
   0x19A4C116, 0x1E376C08, 0x2748774C, 0x34B0BCB5, 0x391C0CB3, 0x4ED8AA4A, 0x5B9CCA4F, 0x682E6FF3,
   0x748F82EE, 0x78A5636F, 0x84C87814, 0x8CC70208, 0x90BEFFFA, 0xA4506CEB, 0xBEF9A3F7, 0xC67178F2]

/-- SHA-256 initial hash state (FIPS 180-4). -/
def sha256H0 : List Nat :=
  [0x6A09E667, 0xBB67AE85, 0x3C6EF372, 0xA54FF53A, 0x510E527F, 0x9B05688C, 0x1F83D9AB, 0x5BE0CD19]

/-- 32-bit truncation. -/
def w32 (n : Nat) : Nat := n % 2 ^ 32

/-- 32-bit right rotation. -/
def ror32 (n k : Nat) : Nat := w32 ((n >>> k) ||| (n <<< (32 - k)))

/-- Big-endian 32-bit word from four bytes. -/
def word32FromBytes : List Nat → Nat
  | a :: b :: c :: d :: _ => ((a * 256 + b) * 256 + c) * 256 + d
  | _ => 0

/-- Split a byte list into consecutive 4-byte big-endian words. -/
def bytesToWords : List Nat → List Nat
  | a :: b :: c :: d :: rest => word32FromBytes [a, b, c, d] :: bytesToWords rest
  | _ => []

/-- Big-endian bytes of a 32-bit word. -/
def word32ToBytes (n : Nat) : List Nat :=
  [n / 2 ^ 24 % 256, n / 2 ^ 16 % 256, n / 2 ^ 8 % 256, n % 256]

/-- SHA-256 padding: append `0x80`, zero-fill to 56 mod 64, append the
64-bit big-endian bit length. -/
def sha256Pad (msg : List Nat) : List Nat :=
  let len := msg.length
  let padZeros := (64 + 56 - (len + 1) % 64) % 64
  let bitLen := len * 8
  msg ++ [0x80] ++ List.replicate padZeros 0 ++
    [bitLen / 2 ^ 56 % 256, bitLen / 2 ^ 48 % 256, bitLen / 2 ^ 40 % 256, bitLen / 2 ^ 32 % 256,
     bitLen / 2 ^ 24 % 256, bitLen / 2 ^ 16 % 256, bitLen / 2 ^ 8 % 256, bitLen % 256]

/-- Extend the 16 message-schedule words to 64. -/
def sha256Extend (w : Array Nat) (i : Nat) : Array Nat :=
  if h : i < 64 then
    if i < 16 then sha256Extend w (i + 1)
    else
      let g := fun j => w.getD j 0
      let s0 := (ror32 (g (i - 15)) 7) ^^^ (ror32 (g (i - 15)) 18) ^^^ ((g (i - 15)) >>> 3)
      let s1 := (ror32 (g (i - 2)) 17) ^^^ (ror32 (g (i - 2)) 19) ^^^ ((g (i - 2)) >>> 10)
      sha256Extend (w.push (w32 (g (i - 16) + s0 + g (i - 7) + s1))) (i + 1)
  else w
termination_by 64 - i

/-- One SHA-256 compression round. -/
def sha256Round (st : List Nat) (kw : Nat) : List Nat :=
  match st with
  | [a, b, c, d, e, f, g, h] =>
    let s1 := (ror32 e 6) ^^^ (ror32 e 11) ^^^ (ror32 e 25)
    let ch := (e &&& f) ^^^ ((2 ^ 32 - 1 - e) &&& g)
    let t1 := w32 (h + s1 + ch + kw)
    let s0 := (ror32 a 2) ^^^ (ror32 a 13) ^^^ (ror32 a 22)
    let mj := (a &&& b) ^^^ (a &&& c) ^^^ (b &&& c)
    let t2 := w32 (s0 + mj)
    [w32 (t1 + t2), a, b, c, w32 (d + t1), e, f, g]
  | st => st

/-- Process one 64-byte chunk. -/
def sha256Chunk (h : List Nat) (chunk : List Nat) : List Nat :=
  let w := sha256Extend (Array.mk (bytesToWords chunk)) 16
  let kws := (List.range 64).map (fun i => w32 (sha256K.getD i 0 + w.getD i 0))
  let st := kws.foldl sha256Round h
  (h.zip st).map (fun p => w32 (p.1 + p.2))

/-- Split into 64-byte chunks. -/
def chunks64 : List Nat → List (List Nat)
  | [] => []
  | a :: rest => (a :: rest.take 63) :: chunks64 (rest.drop 63)
termination_by l => l.length
decreasing_by simp [List.length_drop]; omega

/-- SHA-256 digest of a byte sequence. -/
def sha256Bytes (msg : List Nat) : List Nat :=
  ((chunks64 (sha256Pad msg)).foldl sha256Chunk sha256H0).flatMap word32ToBytes

/-- UTF-8 bytes of a string. -/
def strBytes (s : String) : List Nat := s.toUTF8.toList.map UInt8.toNat

/-- `hex.EncodeToString(sha256.Sum256([]byte(s)))` as used throughout the
handlers. -/
def sha256Hex (s : String) : String := hexEncode (sha256Bytes (strBytes s))

/-- Hex of the first 8 bytes of the SHA-256 digest
(`hex.EncodeToString(sum[:8])` in `npmAcceptHeader`). -/
def sha256Hex8 (s : String) : String := hexEncode ((sha256Bytes (strBytes s)).take 8)

/-! ### A generic JSON tree (Go `map[string]any` after `json.Unmarshal`) -/

/-- JSON values as decoded by `encoding/json` into `any`: objects become
association lists (insertion order standing in for Go's map). -/
inductive Json where
  | null : Json
  | bool (b : Bool) : Json
  | num (n : Int) : Json
  | str (s : String) : Json
  | arr (elems : List Json) : Json
  | obj (fields : List (String × Json)) : Json

/-- Map lookup on an object's fields. -/
def lookupJ (fields : List (String × Json)) (k : String) : Option Json :=
  (fields.find? (fun kv => kv.1 = k)).map (fun kv => kv.2)

/-- Map update of an existing key (Go in-place `m[k] = v`). -/
def setJ (fields : List (String × Json)) (k : String) (v : Json) :
    List (String × Json) :=
  fields.map (fun kv => if kv.1 = k then (kv.1, v) else kv)

/-! ### The Conditional Fetcher (`pkg/misc` — `DownloadFileConditional`)

The fetcher's interaction with the filesystem is recorded as an explicit
trace of operations; the outcomes of the external effects it performs
(the HTTP round trip, each fallible filesystem call, the clock and the
random source) are supplied by a `CondEnv` oracle so that every exit
path of the Go function is a branch of the Lean function. -/

/-- A filesystem operation the fetcher (or a handler) performs.
`chtimes` carries the new modification time. -/
inductive FsOp where
  | mkdirAll (dir : String) : FsOp
  | create (p : String) : FsOp
  | writeBody (p : String) (data : String) : FsOp
  | writeFile (p : String) (data : String) : FsOp
  | chtimes (p : String) (mtime : Int) : FsOp
  | rename (src dst : String) : FsOp
  | remove (p : String) : FsOp
deriving Repr, DecidableEq

/-- An upstream HTTP response as the fetcher sees it. -/
structure HttpResp where
  status : Nat
  etag : String
  lastModified : String
  body : String
deriving Repr, DecidableEq

/-- Outcome of `client.Do`. -/
inductive HttpOutcome where
  | transportError : HttpOutcome
  | response (r : HttpResp) : HttpOutcome
deriving Repr, DecidableEq

/-- Oracle for one call of `DownloadFileConditional`: the HTTP outcome,
the clock and random draw used for the temp-file name, success flags of
each fallible filesystem call, whether the `Last-Modified` value parses
as an HTTP date (and to what time), and how many body bytes landed when
`io.Copy` fails midway. -/
structure CondEnv where
  http : HttpOutcome
  nanos : Nat
  rand : Nat
  randOk : Bool
  mkdirOk : Bool
  createOk : Bool
  copyOk : Bool
  copyPartial : Nat
  lmParseOk : Bool
  lmTime : Int
  statOk : Bool
  chtimesOk : Bool
  closeOk : Bool
  renameOk : Bool
deriving Repr, DecidableEq

/-- The five return values of `DownloadFileConditional`. -/
structure CondResult where
  code : Nat
  newETag : String
  newLastModified : String
  notModified : Bool
  isErr : Bool
deriving Repr, DecidableEq

/-- Temp-file path built at part_000:132-133:
`filepath.Join(filepath.Dir(filepath.Clean(dest)), ".tmp.<base>.<nanos>.<rand>")`,
where the random integer is drawn from `[0, 1000)`. -/
def condTempPath (env : CondEnv) (destination : String) : String :=
  let tempFileName :=
    ".tmp." ++ goBase (goPathClean destination) ++ "." ++
      toString env.nanos ++ "." ++ toString (env.rand % 1000)
  goJoin (goDir (goPathClean destination)) tempFileName

/-- Epilogue of the fetcher's 200 branch, part 2 (part_000:166-180):
close the temp file, rename it over the destination; any failure exits
with 500 and the deferred removal of the temp file. -/
def condCloseRename (env : CondEnv) (destination tmp e l : String) (ops : List FsOp) :
    CondResult × List FsOp :=
  if !env.closeOk then
    (⟨500, e, l, false, true⟩, ops ++ [.remove tmp])
  else if !env.renameOk then
    (⟨500, e, l, false, true⟩, ops ++ [.remove tmp])
  else
    (⟨200, e, l, false, false⟩, ops ++ [.rename tmp destination, .remove tmp])

/-- Epilogue of the fetcher's 200 branch, part 1 (part_000:149-165):
when the response carried a parseable `Last-Modified`, stat the temp
file and set its mtime (failure exits with 500 and the deferred
removal), then close and rename. -/
def condEpilogue (env : CondEnv) (destination tmp e l : String) (afterWrite : List FsOp) :
    CondResult × List FsOp :=
  if l ≠ "" && env.lmParseOk then
    if !env.statOk then
      (⟨500, e, l, false, true⟩, afterWrite ++ [.remove tmp])
    else if !env.chtimesOk then
      (⟨500, e, l, false, true⟩, afterWrite ++ [.remove tmp])
    else
      condCloseRename env destination tmp e l (afterWrite ++ [.chtimes tmp env.lmTime])
  else
    condCloseRename env destination tmp e l afterWrite

/-- `misc.DownloadFileConditional` (src/unnamed/part_000:77-181): issue a
conditional GET and atomically publish a 200 body at `destination`,
returning the result tuple and the trace of filesystem operations. -/
def downloadFileConditional (env : CondEnv) (destination : String) :
    CondResult × List FsOp :=
  match env.http with
  | .transportError =>
    (⟨502, "", "", false, true⟩, [])
  | .response r =>
    if r.status = 304 then
      (⟨304, r.etag, r.lastModified, true, false⟩, [])
    else if r.status ≠ 200 then
      (⟨r.status, r.etag, r.lastModified, false, true⟩, [])
    else if !env.mkdirOk then
      (⟨409, r.etag, r.lastModified, false, true⟩, [.mkdirAll (goDir destination)])
    else if !env.randOk then
      (⟨500, r.etag, r.lastModified, false, true⟩, [.mkdirAll (goDir destination)])
    else if !env.createOk then
      (⟨500, r.etag, r.lastModified, false, true⟩, [.mkdirAll (goDir destination)])
    else if !env.copyOk then
      (⟨400, r.etag, r.lastModified, false, true⟩,
        [.mkdirAll (goDir destination),
         .create (goPathClean (condTempPath env destination)),
         .writeBody (goPathClean (condTempPath env destination))
           (⟨r.body.data.take env.copyPartial⟩),
         .remove (goPathClean (condTempPath env destination))])
    else
      condEpilogue env destination (goPathClean (condTempPath env destination))
        r.etag r.lastModified
        [.mkdirAll (goDir destination),
         .create (goPathClean (condTempPath env destination)),
         .writeBody (goPathClean (condTempPath env destination)) r.body]

/-! ### Shared handler response model -/

/-- Where a response body comes from. -/
inductive Body where
  | file (path : String) : Body
  | bytes (data : String) : Body
  | text (s : String) : Body
  | jsonDoc (j : Json) : Body
  | empty : Body

/-- The `{etag, last_modified}` sidecar record (`cargoCacheMeta` /
`npmCacheMeta`). -/
structure CacheMeta where
  etag : String
  lastModified : String
deriving Repr, DecidableEq

/-- One invocation of the Conditional Fetcher as issued by a handler. -/
structure CondCall where
  url : String
  etag : String
  lastModified : String
deriving Repr, DecidableEq

/-- Observable outcome of one handler invocation: HTTP status, the
`X-Cache-Status` header (if any), the `Content-Type` header (if set),
response headers copied by the pass-through, the body source, the
upstream calls issued (conditional and plain), the filesystem trace and
the sidecar write (if any). -/
structure HResp where
  status : Nat
  cacheStatus : Option String := none
  contentType : Option String := none
  headers : List (String × String) := []
  body : Body := .empty
  condCalls : List CondCall := []
  plainCalls : List String := []
  fsTrace : List FsOp := []
  metaWritten : Option CacheMeta := none

/-- Modelled from the spec: `misc.DownloadFile` (the Plain Fetcher,
§4.2) is not among the supplied sources; per the spec it issues one GET
for the URL and atomically publishes the response body at `dest` on
success (same atomic discipline as the Conditional Fetcher, no
validators), or returns a non-nil error carrying an HTTP-like status.
Its outcome enters the handler models through this oracle. -/
inductive PlainResult where
  | ok (status : Nat) (body : String) : PlainResult
  | fail (status : Nat) : PlainResult
deriving Repr, DecidableEq

/-- Apply a filesystem trace to a content map (used to compose two
handler invocations in sequence). -/
def applyFsOps (fs : String → Option String) : List FsOp → (String → Option String)
  | [] => fs
  | op :: rest =>
    let fs' : String → Option String :=
      match op with
      | .mkdirAll _ => fs
      | .create p => fun q => if q = p then some "" else fs q
      | .writeBody p d => fun q => if q = p then some d else fs q
      | .writeFile p d => fun q => if q = p then some d else fs q
      | .chtimes _ _ => fs
      | .rename src dst => fun q => if q = dst then fs src else if q = src then none else fs q
      | .remove p => fun q => if q = p then none else fs q
    applyFsOps fs' rest

/-! ### JSON marshalling of the generated payloads (`encoding/json`) -/

/-- `encoding/json` string escaping (with its default HTML escaping of
`<`, `>`, `&`). -/
def jsonEscapeChar (c : Char) : List Char :=
  if c = '"' then ['\\', '"']
  else if c = '\\' then ['\\', '\\']
  else if c = '\n' then ['\\', 'n']
  else if c = '\r' then ['\\', 'r']
  else if c = '\t' then ['\\', 't']
  else if c = '<' then "\\u003c".data
  else if c = '>' then "\\u003e".data
  else if c = '&' then "\\u0026".data
  else if c.toNat < 0x20 then
    "\\u00".data ++ byteToHex c.toNat
  else [c]

/-- `encoding/json` marshalling of a Go string. -/
def jsonQuote (s : String) : String :=
  "\"" ++ ⟨(s.data.map jsonEscapeChar).flatten⟩ ++ "\""

/-- `json.Marshal` of `cargoIndexConfig{DL, API}` (cargo.go:75-79):
`AuthRequired` is zero and omitted, `API` is non-empty here. -/
def cargoConfigJSON (baseURL key : String) : String :=
  "\x7b\"dl\":" ++ jsonQuote (baseURL ++ "/cargo/" ++ key ++ "/crates/\x7bcrate\x7d/\x7bversion\x7d/download") ++
    ",\"api\":" ++ jsonQuote (baseURL ++ "/cargo/" ++ key ++ "/api") ++ "\x7d"

/-- `json.Marshal` of the `{etag, last_modified}` sidecar. -/
def metaJSON (m : CacheMeta) : String :=
  "\x7b\"etag\":" ++ jsonQuote m.etag ++ ",\"last_modified\":" ++ jsonQuote m.lastModified ++ "\x7d"

/-! ### Cargo endpoint derivation (`cargoEndpointsFromSource`) -/

/-- `types.CargoSource`: the per-registry cargo configuration record. -/
structure CargoSource where
  base : String
  index : String
  dl : String
  api : String
deriving Repr, DecidableEq

/-- The derived `{Index, DL, API}` endpoints. -/
structure CargoEndpoints where
  index : String
  dl : String
  api : String
deriving Repr, DecidableEq

/-- Model of the `url.Parse` validity check at cargo.go:322-325
(`err == nil && Scheme != "" && Host != ""`) for ordinary absolute URLs:
a non-empty scheme before `://` and a non-empty host after it. -/
def urlSchemeHostOk (s : String) : Bool :=
  match splitFirst s "://" with
  | some (sch, rest) =>
    sch ≠ "" &&
      (match splitFirst rest "/" with
       | some (h, _) => h ≠ ""
       | none => rest ≠ "")
  | none => false

/-- `cargoEndpointsFromSource` (cargo.go:317-346): trim the base, check
it parses with scheme and host, default `api`/`dl`/`index` from it and
let configured fields override. -/
def cargoEndpointsFromSource (source : CargoSource) : Option CargoEndpoints :=
  let trimmed := trimSuffixStr (strTrim source.base) "/"
  if trimmed = "" then none
  else if !urlSchemeHostOk trimmed then none
  else
    some { index := if source.index ≠ "" then source.index else trimmed ++ "/index",
           dl := if source.dl ≠ "" then source.dl else trimmed ++ "/api/v1/crates",
           api := if source.api ≠ "" then source.api else trimmed ++ "/api" }

/-! ### Cargo handlers (`pkg/handlers/cargo.go`) -/

/-- The cargo index cache path (cargo.go:103). -/
def cargoIndexDest (dirRoot key rawStar : String) : String :=
  goJoinList [dirRoot, "cargo", key, "index", cleanWildcard rawStar]

/-- The cargo index upstream URL (cargo.go:97-101). -/
def cargoIndexURL (eps : CargoEndpoints) (rawStar query : String) : String :=
  let upstreamURL0 := trimSuffixStr eps.index "/" ++ "/" ++ cleanWildcard rawStar
  if query ≠ "" then upstreamURL0 ++ "?" ++ query else upstreamURL0

/-- `CargoIndex` (cargo.go:43-147).  `fs` gives the content of a cache
path if it exists, `metaRead` is what `readCargoCacheMeta` returned
(zero value on a missing or malformed sidecar), `env` drives the
conditional fetch. -/
def cargoIndexRespond (source : Option CargoSource) (dirRoot key scheme host : String)
    (rawStar query : String) (fs : String → Option String) (metaRead : CacheMeta)
    (env : CondEnv) : HResp :=
  match source with
  | none => { status := 404, body := .text "" }
  | some src =>
    if src.base = "" then { status := 404, body := .text "" }
    else
      match cargoEndpointsFromSource src with
      | none => { status := 500, body := .text "" }
      | some endpoints =>
        let cleaned := cleanWildcard rawStar
        if cleaned = "" then { status := 404, body := .text "" }
        else if cleaned = "config.json" then
          let dest := goJoinList [dirRoot, "cargo", key, "index", "config.json"]
          match fs dest with
          | some content =>
            { status := 200, cacheStatus := some "HIT",
              contentType := some "application/json", body := .bytes content }
          | none =>
            let baseURL := scheme ++ "://" ++ host
            let data := cargoConfigJSON baseURL key
            { status := 200, cacheStatus := some "MISS",
              contentType := some "application/json", body := .bytes data,
              fsTrace := [.mkdirAll (goDir dest), .writeFile dest data] }
        else
          let upstreamURL := cargoIndexURL endpoints rawStar query
          let dest := cargoIndexDest dirRoot key rawStar
          let metaFile := dest ++ ".meta.json"
          let cacheExists := (fs dest).isSome
          let meta := if cacheExists then metaRead else ⟨"", ""⟩
          let res := (downloadFileConditional env dest).1
          let tr := (downloadFileConditional env dest).2
          let call : CondCall := ⟨upstreamURL, meta.etag, meta.lastModified⟩
          if res.isErr then
            if !cacheExists then
              { status := res.code, cacheStatus := some "ERROR",
                body := .text "Please check logs...",
                condCalls := [call], fsTrace := tr }
            else
              { status := 200, cacheStatus := some "STALE",
                contentType := some "application/json", body := .file dest,
                condCalls := [call], fsTrace := tr }
          else
            let metaW : Option CacheMeta :=
              if res.newETag ≠ "" || res.newLastModified ≠ "" then
                some ⟨if res.newETag ≠ "" then res.newETag else meta.etag,
                      if res.newLastModified ≠ "" then res.newLastModified else meta.lastModified⟩
              else none
            { status := 200,
              cacheStatus := some (if res.notModified then "HIT" else "MISS"),
              contentType := some "application/json", body := .file dest,
              condCalls := [call],
              fsTrace := tr ++
                (match metaW with
                 | some m => [.mkdirAll (goDir metaFile), .writeFile metaFile (metaJSON m)]
                 | none => []),
              metaWritten := metaW }

/-- The crate cache path (cargo.go:173). -/
def cargoCrateDest (dirRoot key crate version : String) : String :=
  goJoinList [dirRoot, "cargo", key, "crates", crate, crate ++ "-" ++ version ++ ".crate"]

/-- `CargoCrateDownload` (cargo.go:149-204): immutable crate artifacts,
plain fetch only on cache absence.  `existsAfterFail` is the re-`Stat`
after a failed download. -/
def cargoCrateRespond (source : Option CargoSource) (dirRoot key crate version : String)
    (fs : String → Option String) (outcome : PlainResult)
    (existsAfterFail : Bool) : HResp :=
  match source with
  | none => { status := 404, body := .text "" }
  | some src =>
    if src.base = "" then { status := 404, body := .text "" }
    else
      match cargoEndpointsFromSource src with
      | none => { status := 500, body := .text "" }
      | some endpoints =>
        if crate = "" || version = "" then { status := 404, body := .text "" }
        else
          let upstreamURL :=
            trimSuffixStr endpoints.dl "/" ++ "/" ++ crate ++ "/" ++ version ++ "/download"
          let dest := cargoCrateDest dirRoot key crate version
          if (fs dest).isSome then
            { status := 200, cacheStatus := some "HIT",
              contentType := some "application/octet-stream", body := .file dest }
          else
            match outcome with
            | .fail s =>
              if !existsAfterFail then
                { status := s, cacheStatus := some "ERROR",
                  body := .text "Please check logs...", plainCalls := [upstreamURL] }
              else
                { status := 200, cacheStatus := some "STALE",
                  contentType := some "application/octet-stream", body := .file dest,
                  plainCalls := [upstreamURL] }
            | .ok _ data =>
              { status := 200, cacheStatus := some "MISS",
                contentType := some "application/octet-stream", body := .file dest,
                plainCalls := [upstreamURL], fsTrace := [.writeFile dest data] }

/-! ### Cargo API pass-through headers (`copyCargoHeaders`) -/

/-- Go `textproto.CanonicalMIMEHeaderKey` character transform: uppercase
at the start and after every `-`, lowercase elsewhere. -/
def canonChars : Bool → List Char → List Char
  | _, [] => []
  | upper, c :: rest =>
    (if upper then c.toUpper else c.toLower) :: canonChars (c = '-') rest

/-- The characters valid in a MIME header token (RFC 7230). -/
def isTokenChar (c : Char) : Bool :=
  c.isAlphanum ||
    c ∈ ['!', '#', '$', '%', '&', '*', '+', '-', '.', '^', '_', '|', '~'] ||
    c = Char.ofNat 39 || c = Char.ofNat 96

/-- Go `http.CanonicalHeaderKey`: canonicalize when every character is a
valid token character, otherwise return the key unchanged. -/
def canonicalHeaderKey (s : String) : String :=
  if s.data.all isTokenChar then ⟨canonChars true s.data⟩ else s

/-- The hop-by-hop header set (cargo.go:32-41), keyed by canonical form. -/
def cargoHopByHopHeaders : List String :=
  ["Connection", "Keep-Alive", "Proxy-Authenticate", "Proxy-Authorization",
   "Te", "Trailer", "Transfer-Encoding", "Upgrade"]

/-- Go `http.Header.Add`: store the value under the canonical key. -/
def headerAdd (h : List (String × String)) (k v : String) : List (String × String) :=
  h ++ [(canonicalHeaderKey k, v)]

/-- Go `http.Header.Get`: first value stored under the canonical key. -/
def headerGet (h : List (String × List String)) (k : String) : String :=
  match h.find? (fun kv => kv.1 = canonicalHeaderKey k) with
  | some (_, v :: _) => v
  | _ => ""

/-- `copyCargoHeaders` (cargo.go:300-309): copy every header whose
canonical key is not hop-by-hop. -/
def copyCargoHeaders (dst : List (String × String)) (src : List (String × List String)) :
    List (String × String) :=
  src.foldl
    (fun acc kv =>
      if cargoHopByHopHeaders.any (fun h => h = canonicalHeaderKey kv.1) then acc
      else kv.2.foldl (fun a v => headerAdd a kv.1 v) acc)
    dst

/-- `CargoAPIProxy` (cargo.go:206-269): method-checked streaming
pass-through of `endpoints.api` (the forwarded request carries
`User-Agent: cargo` and the client's `Accept`; request headers are not
needed by the claims and are not recorded). -/
def cargoAPIProxyRespond (source : Option CargoSource) (method : String)
    (rawStar query : String) (upstream : HttpOutcome)
    (upstreamHeaders : List (String × List String)) : HResp :=
  match source with
  | none => { status := 404, body := .text "" }
  | some src =>
    if src.base = "" then { status := 404, body := .text "" }
    else
      match cargoEndpointsFromSource src with
      | none => { status := 500, body := .text "" }
      | some endpoints =>
        if method ≠ "GET" && method ≠ "HEAD" then { status := 405, body := .empty }
        else
          let cleaned := cleanWildcard rawStar
          let upstreamBase := trimSuffixStr endpoints.api "/"
          let upstreamURL0 := if cleaned ≠ "" then upstreamBase ++ "/" ++ cleaned else upstreamBase
          let upstreamURL := if query ≠ "" then upstreamURL0 ++ "?" ++ query else upstreamURL0
          match upstream with
          | .transportError =>
            { status := 502, body := .text "", plainCalls := [upstreamURL] }
          | .response r =>
            let hdrs := copyCargoHeaders [] upstreamHeaders
            let ct := headerGet upstreamHeaders "Content-Type"
            let contentType := if ct = "" then "application/json" else ct
            if method = "HEAD" then
              { status := r.status, headers := hdrs, body := .empty,
                plainCalls := [upstreamURL] }
            else
              { status := r.status, headers := hdrs,
                contentType := some contentType, body := .bytes r.body,
                plainCalls := [upstreamURL] }

/-! ### npm handlers (`pkg/handlers/npm.go`) -/

/-- `isNpmTarballPath` (npm.go:239-241). -/
def isNpmTarballPath (p : String) : Bool :=
  strContains p "/-/" && (strEndsWith p ".tgz" || strEndsWith p ".tar.gz")

/-- `isNpmSearchPath` (npm.go:243-245). -/
def isNpmSearchPath (p : String) : Bool :=
  trimSuffixStr p "/" = "-/v1/search"

/-- `npmAcceptHeader` (npm.go:247-256): bucket the client `Accept` into
a cache key and the canonical upstream `Accept`. -/
def npmAcceptHeader (accept : String) : String × String :=
  if strContains accept "application/vnd.npm.install-v1+json" || accept = "" ||
      strContains accept "*/*" then
    ("corgi", "application/vnd.npm.install-v1+json")
  else if strContains accept "application/json" then
    ("full", "application/json")
  else
    ("accept-" ++ sha256Hex8 accept, accept)

/-- `npmEncodePackageName` (npm.go:258-263): re-encode `/` as `%2F` for
scoped packages. -/
def npmEncodePackageName (name : String) : String :=
  if strStartsWith name "@" && strContains name "/" then
    String.intercalate "%2F" (strSplitOn name "/")
  else name

/-- First split of a character list at a separator character:
`some (before, after)` when the separator occurs (Go `strings.Cut`). -/
def urlCutFirst (sep : Char) : List Char → Option (List Char × List Char)
  | [] => none
  | c :: rest =>
    if c = sep then some ([], rest)
    else (urlCutFirst sep rest).map (fun p => (c :: p.1, p.2))

/-- Split at the last occurrence of a separator (Go `strings.LastIndex`). -/
def urlCutLast (sep : Char) (l : List Char) : Option (List Char × List Char) :=
  match urlCutFirst sep l.reverse with
  | some (a, b) => some (b.reverse, a.reverse)
  | none => none

/-- Whether every `%` begins a well-formed two-digit hex escape; this is
the only failure `net/url.unescape` has outside the host and zone
modes. -/
def validPercentEscapes : List Char → Bool
  | [] => true
  | '%' :: a :: b :: rest =>
    (hexVal a).isSome && (hexVal b).isSome && validPercentEscapes rest
  | '%' :: _ => false
  | _ :: rest => validPercentEscapes rest

/-- `net/url.getScheme`: `none` on the `missing protocol scheme` error
(a leading `:`), otherwise whether a scheme was found and the remainder
after it (the whole input when there is no scheme). -/
def getSchemeAux (orig : List Char) : List Char → Bool → Option (Bool × List Char)
  | [], _ => some (false, orig)
  | c :: rest, started =>
    if c.isAlpha then getSchemeAux orig rest true
    else if c.isDigit || c = '+' || c = '-' || c = '.' then
      if started then getSchemeAux orig rest true else some (false, orig)
    else if c = ':' then
      if started then some (true, rest) else none
    else some (false, orig)

/-- `net/url.getScheme`, entry point. -/
def getScheme (l : List Char) : Option (Bool × List Char) := getSchemeAux l l false

/-- `net/url.validOptionalPort`: empty, or `:` followed by digits only. -/
def validOptionalPort : List Char → Bool
  | [] => true
  | ':' :: rest => rest.all (fun c => c.isDigit)
  | _ => false

/-- `net/url.shouldEscape` in `encodeHost`/`encodeZone` mode: `true`
when a raw ASCII character is invalid in a host. -/
def hostShouldEscape (c : Char) : Bool :=
  !(c.isAlphanum ||
    c ∈ ['-', '_', '.', '~'] ||
    c ∈ ['!', '$', '&', '\'', '(', ')', '*', '+', ',', ';', '=', ':', '[', ']', '<', '>', '"'])

/-- `net/url.unescape` in `encodeHost` mode as a validity check: every
escape must be well-formed hex with first digit at least 8 (except the
literal `%25`), and every raw ASCII character must be host-legal. -/
def hostEscapesOk : List Char → Bool
  | [] => true
  | '%' :: a :: b :: rest =>
    (match hexVal a, hexVal b with
     | some ha, some _ => (8 ≤ ha || (a = '2' && b = '5')) && hostEscapesOk rest
     | _, _ => false)
  | '%' :: _ => false
  | c :: rest => (0x80 ≤ c.toNat || !hostShouldEscape c) && hostEscapesOk rest

/-- `net/url.unescape` in `encodeZone` mode as a validity check: escapes
must be well-formed and decode to `%25`, a space, or a host-legal ASCII
byte. -/
def zoneEscapesOk : List Char → Bool
  | [] => true
  | '%' :: a :: b :: rest =>
    (match hexVal a, hexVal b with
     | some ha, some hb =>
       ((a = '2' && b = '5') || 16 * ha + hb = 32 ||
        (16 * ha + hb < 0x80 && !hostShouldEscape (Char.ofNat (16 * ha + hb)))) &&
       zoneEscapesOk rest
     | _, _ => false)
  | '%' :: _ => false
  | c :: rest => (0x80 ≤ c.toNat || !hostShouldEscape c) && zoneEscapesOk rest

/-- `net/url.validUserinfo`. -/
def validUserinfo (l : List Char) : Bool :=
  l.all (fun c => c.isAlphanum ||
    c ∈ ['-', '.', '_', ':', '~', '!', '$', '&', '\'', '(', ')', '*', '+', ',', ';', '=', '%', '@'])

/-- `net/url.parseHost` as a validity check: bracketed hosts need a
closing `]`, a valid optional port and host/zone-legal escapes; other
hosts need a valid port after the last `:` and host-legal escapes. -/
def parseHost (h : List Char) : Bool :=
  match h with
  | '[' :: _ =>
    (match urlCutLast ']' h with
     | none => false
     | some (pre, post) =>
       validOptionalPort post &&
       (match splitFirst ⟨pre⟩ "%25" with
        | some (h1, h2) =>
          hostEscapesOk h1.data &&
          zoneEscapesOk ('%' :: '2' :: '5' :: h2.data) &&
          hostEscapesOk (']' :: post)
        | none => hostEscapesOk h))
  | _ =>
    (match urlCutLast ':' h with
     | some (_, post) => validOptionalPort (':' :: post)
     | none => true) &&
    hostEscapesOk h

/-- `net/url.parseAuthority` as a validity check: the host after the
last `@` must parse, and any userinfo before it must be made of
userinfo-legal characters with well-formed escapes. -/
def parseAuthority (auth : List Char) : Bool :=
  match urlCutLast '@' auth with
  | none => parseHost auth
  | some (ui, hostPart) =>
    parseHost hostPart &&
    validUserinfo ui &&
    (match urlCutFirst ':' ui with
     | some (n, p) => validPercentEscapes n && validPercentEscapes p
     | none => validPercentEscapes ui)

/-- Go `url.Parse` restricted to what `rewriteNpmTarballs` consumes:
`none` exactly when `url.Parse` errors (a control character before the
fragment, a malformed escape in the fragment or path, a leading `:`, a
colon in the first segment of a scheme-less relative path, or an
invalid authority), otherwise `some (parsed.Path, parsed.RawQuery)`
with the path percent-decoded, empty for opaque URLs (`mailto:a@b`) and
authority-only URLs, and the query taken raw. -/
def parseURLPathQuery (s : String) : Option (String × String) :=
  let rest0 : List Char :=
    match splitFirst s "#" with
    | some (a, _) => a.data
    | none => s.data
  let fragOk : Bool :=
    match splitFirst s "#" with
    | some (_, f) => validPercentEscapes f.data
    | none => true
  if rest0.any (fun c => c.toNat < 0x20 || c.toNat = 0x7F) then none
  else if !fragOk then none
  else
    match getScheme rest0 with
    | none => none
    | some (hasScheme, rest1) =>
      let rest2 : List Char :=
        match urlCutFirst '?' rest1 with
        | some (a, _) => a
        | none => rest1
      let query : String :=
        match urlCutFirst '?' rest1 with
        | some (_, b) => ⟨b⟩
        | none => ""
      match rest2 with
      | [] => some ("", query)
      | c :: _ =>
        if c ≠ '/' then
          if hasScheme then some ("", query)
          else
            let seg :=
              match urlCutFirst '/' rest2 with
              | some (a, _) => a
              | none => rest2
            if seg.any (fun x => x = ':') then none
            else
              match pathUnescapeChars rest2 with
              | none => none
              | some p => some (⟨p⟩, query)
        else if (hasScheme || !(['/', '/', '/'].isPrefixOf rest2)) &&
            (['/', '/'].isPrefixOf rest2) then
          let after := rest2.drop 2
          let auth :=
            match urlCutFirst '/' after with
            | some (a, _) => a
            | none => after
          let rest3 : List Char :=
            match urlCutFirst '/' after with
            | some (_, b) => '/' :: b
            | none => []
          if parseAuthority auth then
            match pathUnescapeChars rest3 with
            | none => none
            | some p => some (⟨p⟩, query)
          else none
        else
          match pathUnescapeChars rest2 with
          | none => none
          | some p => some (⟨p⟩, query)

/-- Per-version step of `rewriteNpmTarballs` (npm.go:276-307): replace
`dist.tarball` when the whole chain of shapes matches, else leave the
version untouched; the flag reports whether a rewrite happened. -/
def rewriteVersionEntry (baseURL key : String) (v : Json) : Json × Bool :=
  match v with
  | .obj versionInfo =>
    match lookupJ versionInfo "dist" with
    | some (.obj dist) =>
      match lookupJ dist "tarball" with
      | some (.str t) =>
        if t = "" then (v, false)
        else
          match parseURLPathQuery t with
          | none => (v, false)
          | some (p, q) =>
            if p = "" then (v, false)
            else
              let rewritePath := if q ≠ "" then p ++ "?" ++ q else p
              (.obj (setJ versionInfo "dist"
                  (.obj (setJ dist "tarball"
                    (.str (baseURL ++ "/npm/" ++ key ++ rewritePath))))),
                true)
      | _ => (v, false)
    | _ => (v, false)
  | _ => (v, false)

/-- `rewriteNpmTarballs` (npm.go:265-310): rewrite every
`versions.<ver>.dist.tarball` in place; returns the updated document and
whether anything was rewritten. -/
def rewriteNpmTarballsJ (packument : List (String × Json)) (baseURL key : String) :
    List (String × Json) × Bool :=
  match lookupJ packument "versions" with
  | some (.obj versions) =>
    let rewritten := versions.map (fun kv => (kv.1, rewriteVersionEntry baseURL key kv.2))
    (setJ packument "versions" (.obj (rewritten.map (fun kv => (kv.1, kv.2.1)))),
      rewritten.any (fun kv => kv.2.2))
  | some _ => (packument, false)
  | none => (packument, false)

/-- Decoded, cleaned npm package name (npm.go:60-65). -/
def npmPackageName (rawPath : String) : String :=
  let decodedPath :=
    match pathUnescape rawPath with
    | some d => d
    | none => rawPath
  trimSuffixStr (trimPrefixStr (goPathClean ("/" ++ decodedPath)) "/") "/"

/-- Packument cache filename base, keyed by `Accept` bucket and query
hash (npm.go:70-81). -/
def npmFilenameBase (accept query : String) : String :=
  let acceptKey := (npmAcceptHeader accept).1
  let queryHash := if query ≠ "" then sha256Hex query else ""
  if queryHash ≠ "" then "packument." ++ acceptKey ++ "." ++ queryHash
  else "packument." ++ acceptKey

/-- Packument data-file path (npm.go:82-84). -/
def npmDataFile (dirRoot key rawPath accept query : String) : String :=
  goJoin (goJoinList [dirRoot, "npm", key, "metadata", npmPackageName rawPath])
    (npmFilenameBase accept query ++ ".json")

/-- Packument sidecar path (npm.go:85). -/
def npmMetaFile (dirRoot key rawPath accept query : String) : String :=
  goJoin (goJoinList [dirRoot, "npm", key, "metadata", npmPackageName rawPath])
    (npmFilenameBase accept query ++ ".meta.json")

/-- Packument upstream URL (npm.go:87-92). -/
def npmMetadataURL (npmBase rawPath query : String) : String :=
  let upstreamURL0 :=
    trimSuffixStr npmBase "/" ++ "/" ++ npmEncodePackageName (npmPackageName rawPath)
  if query ≠ "" then upstreamURL0 ++ "?" ++ query else upstreamURL0

/-- The sidecar write operations (npm.go:126-128 / cargo.go:138-140):
`writeNpmCacheMeta` ensures the parent directory then writes the JSON. -/
def metaOps (metaW : Option CacheMeta) (metaFile : String) : List FsOp :=
  match metaW with
  | some m => [.mkdirAll (goDir metaFile), .writeFile metaFile (metaJSON m)]
  | none => []

/-- Tail of `handleNpmMetadata` (npm.go:132-157): read the cache file as
left on disk, parse it, rewrite the tarball URLs and respond; a read or
parse failure yields `400 Metadata error`. -/
def npmReadServe (cs : String) (call : CondCall) (metaW : Option CacheMeta)
    (trAll : List FsOp) (dataFile upstreamAccept baseURL key : String)
    (fs : String → Option String) (parse : String → Option (List (String × Json))) :
    HResp :=
  match applyFsOps fs trAll dataFile with
  | none =>
    { status := 400, cacheStatus := some cs, body := .text "Metadata error",
      condCalls := [call], fsTrace := trAll, metaWritten := metaW }
  | some payload =>
    match parse payload with
    | none =>
      { status := 400, cacheStatus := some cs, body := .text "Metadata error",
        condCalls := [call], fsTrace := trAll, metaWritten := metaW }
    | some packument =>
      { status := 200, cacheStatus := some cs, contentType := some upstreamAccept,
        body := .jsonDoc (.obj (rewriteNpmTarballsJ packument baseURL key).1),
        condCalls := [call], fsTrace := trAll, metaWritten := metaW }

/-- `handleNpmMetadata` (npm.go:59-157): conditional fetch of the
packument variant keyed by `Accept` bucket and query hash, then
read/parse/rewrite of the cached JSON for the response.  `parse` stands
for `json.Unmarshal` into `map[string]any`. -/
def npmMetadataRespond (npmBase dirRoot key scheme host : String)
    (rawPath accept query : String) (fs : String → Option String) (metaRead : CacheMeta)
    (env : CondEnv) (parse : String → Option (List (String × Json))) : HResp :=
  if npmPackageName rawPath = "" then { status := 404, body := .text "" }
  else
    let upstreamAccept := (npmAcceptHeader accept).2
    let dataFile := npmDataFile dirRoot key rawPath accept query
    let metaFile := npmMetaFile dirRoot key rawPath accept query
    let upstreamURL := npmMetadataURL npmBase rawPath query
    let cacheExists := (fs dataFile).isSome
    let meta := if cacheExists then metaRead else ⟨"", ""⟩
    let res := (downloadFileConditional env dataFile).1
    let tr := (downloadFileConditional env dataFile).2
    let call : CondCall := ⟨upstreamURL, meta.etag, meta.lastModified⟩
    if res.isErr && !cacheExists then
      { status := res.code, cacheStatus := some "ERROR",
        body := .text "Please check logs...", condCalls := [call], fsTrace := tr }
    else
      let cs := if res.isErr then "STALE" else if res.notModified then "HIT" else "MISS"
      let metaW : Option CacheMeta :=
        if !res.isErr && (res.newETag ≠ "" || res.newLastModified ≠ "") then
          some ⟨if res.newETag ≠ "" then res.newETag else meta.etag,
                if res.newLastModified ≠ "" then res.newLastModified else meta.lastModified⟩
        else none
      npmReadServe cs call metaW (tr ++ metaOps metaW metaFile) dataFile upstreamAccept
        (scheme ++ "://" ++ host) key fs parse

/-- The npm tarball cache path (npm.go:162). -/
def npmTarballDest (dirRoot key rawPath : String) : String :=
  goJoinList [dirRoot, "npm", key, "tarballs", rawPath]

/-- `handleNpmTarball` (npm.go:159-189): immutable tarball artifacts. -/
def npmTarballRespond (npmBase dirRoot key rawPath : String)
    (fs : String → Option String) (outcome : PlainResult)
    (existsAfterFail : Bool) : HResp :=
  let upstreamURL := trimSuffixStr npmBase "/" ++ "/" ++ rawPath
  let dest := npmTarballDest dirRoot key rawPath
  if (fs dest).isSome then
    { status := 200, cacheStatus := some "HIT", body := .file dest }
  else
    match outcome with
    | .fail s =>
      if !existsAfterFail then
        { status := s, cacheStatus := some "ERROR",
          body := .text "Please check logs...", plainCalls := [upstreamURL] }
      else
        { status := 200, cacheStatus := some "STALE", body := .file dest,
          plainCalls := [upstreamURL] }
    | .ok _ data =>
      { status := 200, cacheStatus := some "MISS", body := .file dest,
        plainCalls := [upstreamURL], fsTrace := [.writeFile dest data] }

/-- `npmSearchTTL` (npm.go:29), in seconds. -/
def npmSearchTTL : Int := 600

/-- The npm search cache path (npm.go:192-199). -/
def npmSearchDest (dirRoot key query : String) : String :=
  goJoinList [dirRoot, "npm", key, "search",
    (if query ≠ "" then sha256Hex query else "empty") ++ ".json"]

/-- `handleNpmSearch` (npm.go:191-237): serve from cache while the
file's mtime is within the 10-minute TTL, else plain-fetch and bump the
mtime to now.  `statMtime` is the mtime of the cache file if it exists. -/
def npmSearchRespond (npmBase dirRoot key : String) (query : String)
    (statMtime : Option Int) (now : Int) (outcome : PlainResult)
    (existsAfterFail : Bool) : HResp :=
  let dest := npmSearchDest dirRoot key query
  let fresh : Bool :=
    match statMtime with
    | some m => decide (now - m < npmSearchTTL)
    | none => false
  if fresh then
    { status := 200, cacheStatus := some "HIT",
      contentType := some "application/json", body := .file dest }
  else
    let upstreamURL0 := trimSuffixStr npmBase "/" ++ "/-/v1/search"
    let upstreamURL := if query ≠ "" then upstreamURL0 ++ "?" ++ query else upstreamURL0
    match outcome with
    | .fail s =>
      if !existsAfterFail then
        { status := s, cacheStatus := some "ERROR",
          body := .text "Please check logs...", plainCalls := [upstreamURL] }
      else
        { status := 200, cacheStatus := some "STALE",
          contentType := some "application/json", body := .file dest,
          plainCalls := [upstreamURL] }
    | .ok _ data =>
      { status := 200, cacheStatus := some "MISS",
        contentType := some "application/json", body := .file dest,
        plainCalls := [upstreamURL],
        fsTrace := [.writeFile dest data, .chtimes dest now] }

/-- The oracle bundle for one `NpmProxy` invocation. -/
structure NpmEnv where
  cond : CondEnv
  metaRead : CacheMeta
  parse : String → Option (List (String × Json))
  plain : PlainResult
  existsAfterFail : Bool
  statMtime : Option Int
  now : Int

/-- `NpmProxy` (npm.go:31-57): clean the wildcard and dispatch to the
search / tarball / metadata handlers. -/
def npmProxyRespond (npmBase dirRoot key scheme host : String)
    (rawStar accept query : String) (fs : String → Option String)
    (env : NpmEnv) : HResp :=
  let rawPath := trimSuffixStr (trimPrefixStr rawStar "/") "/"
  if rawPath = "" then { status := 404, body := .text "" }
  else
    let cleaned := trimPrefixStr (goPathClean ("/" ++ rawPath)) "/"
    if cleaned = "" then { status := 404, body := .text "" }
    else if isNpmSearchPath cleaned then
      npmSearchRespond npmBase dirRoot key query env.statMtime env.now env.plain
        env.existsAfterFail
    else if isNpmTarballPath cleaned then
      npmTarballRespond npmBase dirRoot key cleaned fs env.plain env.existsAfterFail
    else
      npmMetadataRespond npmBase dirRoot key scheme host cleaned accept query fs
        env.metaRead env.cond env.parse

/-! ### Go proxy handlers (`pkg/handlers/goproxy.go`) -/

/-- `downloadAndCacheFile` (goproxy.go:19-41): always plain-fetch; on
failure serve the local file labelled `HIT` when it exists, else commit
a `410 Gone\n` body with the fetcher's status.  The boolean reports
whether the helper already committed the response. -/
def downloadAndCacheFile (url dest : String) (outcome : PlainResult)
    (existsAfterFail : Bool) : HResp × Bool :=
  match outcome with
  | .fail s =>
    if !existsAfterFail then
      ({ status := s, body := .text "410 Gone\n", plainCalls := [url] }, true)
    else
      ({ status := 200, cacheStatus := some "HIT", body := .empty,
         plainCalls := [url] }, false)
  | .ok _ data =>
    ({ status := 200, cacheStatus := some "MISS", body := .empty,
       plainCalls := [url], fsTrace := [.writeFile dest data] }, false)

/-- `GoProxyInfo` (goproxy.go:80-102): split the wildcard at `/@v/`,
always call `downloadAndCacheFile`, then serve the cache file as JSON. -/
def goProxyInfoRespond (base dirRoot key rawStar : String) (outcome : PlainResult)
    (existsAfterFail : Bool) : HResp :=
  match strSplitOn rawStar "/@v/" with
  | [modulePath, verPart] =>
    let version := trimSuffixStr verPart ".info"
    let url := base ++ "/" ++ modulePath ++ "/@v/" ++ version ++ ".info"
    let dest := dirRoot ++ "/goproxy/" ++ key ++ "/" ++ modulePath ++ "/@v/" ++ version ++ ".info"
    let r := (downloadAndCacheFile url dest outcome existsAfterFail).1
    if (downloadAndCacheFile url dest outcome existsAfterFail).2 then r
    else { r with contentType := some "application/json", body := .file dest }
  | _ => { status := 400, body := .text "invalid path" }

/-- `GoProxyMod` (goproxy.go:105-127): as `GoProxyInfo` with suffix
`.mod` and a plain-text content type. -/
def goProxyModRespond (base dirRoot key rawStar : String) (outcome : PlainResult)
    (existsAfterFail : Bool) : HResp :=
  match strSplitOn rawStar "/@v/" with
  | [modulePath, verPart] =>
    let version := trimSuffixStr verPart ".mod"
    let url := base ++ "/" ++ modulePath ++ "/@v/" ++ version ++ ".mod"
    let dest := dirRoot ++ "/goproxy/" ++ key ++ "/" ++ modulePath ++ "/@v/" ++ version ++ ".mod"
    let r := (downloadAndCacheFile url dest outcome existsAfterFail).1
    if (downloadAndCacheFile url dest outcome existsAfterFail).2 then r
    else { r with contentType := some "text/plain; charset=utf-8", body := .file dest }
  | _ => { status := 400, body := .text "invalid path" }

/-- `GoProxyZip` (goproxy.go:130-175): serve the cache file when it
exists (`HIT`, no fetch); only on absence plain-fetch; on failure serve
the local file with no cache-status header, or commit `410 Gone\n`. -/
def goProxyZipRespond (base dirRoot key rawStar : String) (fs : String → Option String)
    (outcome : PlainResult) (existsAfterFail : Bool) : HResp :=
  match strSplitOn rawStar "/@v/" with
  | [modulePath, verPart] =>
    let version := trimSuffixStr verPart ".zip"
    let url := base ++ "/" ++ modulePath ++ "/@v/" ++ version ++ ".zip"
    let dest := dirRoot ++ "/goproxy/" ++ key ++ "/" ++ modulePath ++ "/@v/" ++ version ++ ".zip"
    if (fs dest).isSome then
      { status := 200, cacheStatus := some "HIT",
        contentType := some "application/zip", body := .file dest }
    else
      match outcome with
      | .fail s =>
        if !existsAfterFail then
          { status := s, body := .text "410 Gone\n", plainCalls := [url] }
        else
          { status := 200, contentType := some "application/zip", body := .file dest,
            plainCalls := [url] }
      | .ok _ data =>
        { status := 200, cacheStatus := some "MISS",
          contentType := some "application/zip", body := .file dest,
          plainCalls := [url], fsTrace := [.writeFile dest data] }
  | _ => { status := 400, body := .text "invalid path" }

/-- `@latest` freshness window (goproxy.go:198), in seconds. -/
def goLatestTTL : Int := 3600

/-- `GoProxyLatest` (goproxy.go:178-224): serve from cache while the
file's mtime is within one hour of now; otherwise plain-fetch with the
usual fallback (`HIT` on failure with a local file). -/
def goProxyLatestRespond (base dirRoot key rawStar : String) (statMtime : Option Int)
    (now : Int) (outcome : PlainResult) (existsAfterFail : Bool) : HResp :=
  let module := trimSuffixStr rawStar "/@latest"
  let url := base ++ "/" ++ module ++ "/@latest"
  let dest := dirRoot ++ "/goproxy/" ++ key ++ "/" ++ module ++ "/@latest"
  let cacheValid : Bool :=
    match statMtime with
    | some m => decide (now - goLatestTTL < m)
    | none => false
  if !cacheValid then
    match outcome with
    | .fail s =>
      if !existsAfterFail then
        { status := s, body := .text "410 Gone\n", plainCalls := [url] }
      else
        { status := 200, cacheStatus := some "HIT",
          contentType := some "application/json", body := .file dest,
          plainCalls := [url] }
    | .ok _ data =>
      { status := 200, cacheStatus := some "MISS",
        contentType := some "application/json", body := .file dest,
        plainCalls := [url], fsTrace := [.writeFile dest data] }
  else
    { status := 200, cacheStatus := some "HIT",
      contentType := some "application/json", body := .file dest }

/-! ### RubyGems handler (`pkg/handlers/rubygems.go`) -/

/-- Oracle bundle for one `RubyGems` invocation.  `filesEqual` stands
for `misc.FilesEqual` — modelled from the spec: its source is not among
the supplied files; per the spec it compares the cached bytes against
the live upstream resource (one upstream round trip) and reports byte
equality. -/
structure RubyEnv where
  filesEqual : Bool
  outcome : PlainResult
  existsAfterFail : Bool

/-- `RubyGems` (rubygems.go:19-97): hybrid freshness — gem artifacts are
immutable; other cached paths are revalidated through `FilesEqual`; the
root and query-bearing requests get dedicated cache keys.  Calls to
`FilesEqual` are recorded in `plainCalls` (it contacts the upstream). -/
def rubyGemsRespond (base dirRoot key rawStar query : String)
    (fs : String → Option String) (env : RubyEnv) : HResp :=
  let upstreamPath0 := cleanWildcard rawStar
  let isRoot := upstreamPath0 = "" || upstreamPath0 = "."
  let upstreamPath := if isRoot then "" else upstreamPath0
  let cacheKey := if isRoot then "__root" else upstreamPath0
  let cachePath :=
    if query ≠ "" then goJoinList ["_query", sha256Hex query, cacheKey] else cacheKey
  let url0 := trimSuffixStr base "/" ++ "/"
  let url1 := if upstreamPath ≠ "" then url0 ++ upstreamPath else url0
  let url := if query ≠ "" then url1 ++ "?" ++ query else url1
  let dest := dirRoot ++ "/rubygems/" ++ key ++ "/" ++ cachePath
  let cacheExists := (fs dest).isSome
  let hitEarly : Bool :=
    cacheExists &&
      ((strStartsWith upstreamPath "gems/" && strEndsWith upstreamPath ".gem") || env.filesEqual)
  if hitEarly then
    let isGemPath := strStartsWith upstreamPath "gems/" && strEndsWith upstreamPath ".gem"
    { status := 200, cacheStatus := some "HIT", body := .file dest,
      plainCalls := if isGemPath then [] else [url] }
  else
    let equalCalls : List String :=
      if cacheExists then [url] else []
    match env.outcome with
    | .fail s =>
      if !env.existsAfterFail then
        { status := s, cacheStatus := some "ERROR",
          body := .text "Please check logs...", plainCalls := equalCalls ++ [url] }
      else
        { status := 200, cacheStatus := some "STALE", body := .file dest,
          plainCalls := equalCalls ++ [url] }
    | .ok _ data =>
      { status := 200,
        cacheStatus := some (if cacheExists then "EXPIRED" else "MISS"),
        body := .file dest, plainCalls := equalCalls ++ [url],
        fsTrace := [.writeFile dest data] }

/-! ### Predicates used by the claim statements -/

/-- Whether an operation is a rename. -/
def FsOp.isRename : FsOp → Bool
  | .rename _ _ => true
  | _ => false

/-- Safety of one fetcher filesystem operation with respect to a temp
path and a destination: content is only ever created, streamed or
touched at the temp path, the destination is only ever the target of a
rename from the temp path, and removal only ever targets the temp
path. -/
def OpSafe (tmp dest : String) : FsOp → Prop
  | .mkdirAll _ => True
  | .create p => p = tmp
  | .writeBody p _ => p = tmp
  | .writeFile _ _ => False
  | .chtimes p _ => p = tmp
  | .rename s d => s = tmp ∧ d = dest
  | .remove p => p = tmp

/-- A normal path segment: non-empty and not a dot element.  A cleaned
wildcard made of such segments cannot escape its subtree. -/
def goodSeg (s : String) : Prop := s ≠ "" ∧ s ≠ "." ∧ s ≠ ".."

/-- What "the cache file is served" means for the npm metadata handler:
the response is the tarball-rewritten parse of the data file as left by
the handler's filesystem trace, or the `400 Metadata error` response
when the file cannot be read or parsed. -/
def npmServed (resp : HResp) (fs : String → Option String)
    (parse : String → Option (List (String × Json))) (dataFile baseURL key : String) :
    Prop :=
  (∃ payload pk, applyFsOps fs resp.fsTrace dataFile = some payload ∧
      parse payload = some pk ∧ resp.status = 200 ∧
      resp.body = Body.jsonDoc (Json.obj (rewriteNpmTarballsJ pk baseURL key).1)) ∨
  (resp.status = 400 ∧ resp.body = Body.text "Metadata error")

end Hub

namespace Hub

/-! ## Theorems -/

/-- Case analysis of the close/rename epilogue. -/
lemma condCloseRename_cases (env : CondEnv) (destination tmp e l : String) (ops : List FsOp) :
    condCloseRename env destination tmp e l ops =
      (⟨500, e, l, false, true⟩, ops ++ [FsOp.remove tmp]) ∨
    condCloseRename env destination tmp e l ops =
      (⟨200, e, l, false, false⟩, ops ++ [FsOp.rename tmp destination, FsOp.remove tmp]) := by
  delta condCloseRename
  split
  · exact Or.inl rfl
  split
  · exact Or.inl rfl
  · exact Or.inr rfl

/-- Case analysis of the full 200-branch epilogue. -/
lemma condEpilogue_cases (env : CondEnv) (destination tmp e l : String) (aw : List FsOp) :
    condEpilogue env destination tmp e l aw =
      (⟨500, e, l, false, true⟩, aw ++ [FsOp.remove tmp]) ∨
    condEpilogue env destination tmp e l aw =
      (⟨500, e, l, false, true⟩, aw ++ [FsOp.chtimes tmp env.lmTime, FsOp.remove tmp]) ∨
    condEpilogue env destination tmp e l aw =
      (⟨200, e, l, false, false⟩,
        aw ++ [FsOp.chtimes tmp env.lmTime, FsOp.rename tmp destination, FsOp.remove tmp]) ∨
    condEpilogue env destination tmp e l aw =
      (⟨200, e, l, false, false⟩, aw ++ [FsOp.rename tmp destination, FsOp.remove tmp]) := by
  delta condEpilogue
  split
  · split
    · exact Or.inl rfl
    split
    · exact Or.inl rfl
    rcases condCloseRename_cases env destination tmp e l
        (aw ++ [FsOp.chtimes tmp env.lmTime]) with h | h <;> rw [h]
    · right; left; simp
    · right; right; left; simp
  · rcases condCloseRename_cases env destination tmp e l aw with h | h <;> rw [h]
    · exact Or.inl rfl
    · right; right; right; rfl

/-- Full case analysis of `downloadFileConditional`: the result/trace
pair takes one of ten literal shapes. -/
lemma dfc_cases (env : CondEnv) (destination : String) :
    downloadFileConditional env destination = (⟨502, "", "", false, true⟩, []) ∨
    ∃ r, env.http = HttpOutcome.response r ∧
      (downloadFileConditional env destination =
          (⟨304, r.etag, r.lastModified, true, false⟩, []) ∨
       downloadFileConditional env destination =
          (⟨r.status, r.etag, r.lastModified, false, true⟩, []) ∨
       downloadFileConditional env destination =
          (⟨409, r.etag, r.lastModified, false, true⟩, [FsOp.mkdirAll (goDir destination)]) ∨
       downloadFileConditional env destination =
          (⟨500, r.etag, r.lastModified, false, true⟩, [FsOp.mkdirAll (goDir destination)]) ∨
       downloadFileConditional env destination =
          (⟨400, r.etag, r.lastModified, false, true⟩,
           [FsOp.mkdirAll (goDir destination),
            FsOp.create (goPathClean (condTempPath env destination)),
            FsOp.writeBody (goPathClean (condTempPath env destination))
              (⟨r.body.data.take env.copyPartial⟩),
            FsOp.remove (goPathClean (condTempPath env destination))]) ∨
       downloadFileConditional env destination =
          (⟨500, r.etag, r.lastModified, false, true⟩,
           [FsOp.mkdirAll (goDir destination),
            FsOp.create (goPathClean (condTempPath env destination)),
            FsOp.writeBody (goPathClean (condTempPath env destination)) r.body,
            FsOp.remove (goPathClean (condTempPath env destination))]) ∨
       downloadFileConditional env destination =
          (⟨500, r.etag, r.lastModified, false, true⟩,
           [FsOp.mkdirAll (goDir destination),
            FsOp.create (goPathClean (condTempPath env destination)),
            FsOp.writeBody (goPathClean (condTempPath env destination)) r.body,
            FsOp.chtimes (goPathClean (condTempPath env destination)) env.lmTime,
            FsOp.remove (goPathClean (condTempPath env destination))]) ∨
       downloadFileConditional env destination =
          (⟨200, r.etag, r.lastModified, false, false⟩,
           [FsOp.mkdirAll (goDir destination),
            FsOp.create (goPathClean (condTempPath env destination)),
            FsOp.writeBody (goPathClean (condTempPath env destination)) r.body,
            FsOp.chtimes (goPathClean (condTempPath env destination)) env.lmTime,
            FsOp.rename (goPathClean (condTempPath env destination)) destination,
            FsOp.remove (goPathClean (condTempPath env destination))]) ∨
       downloadFileConditional env destination =
          (⟨200, r.etag, r.lastModified, false, false⟩,
           [FsOp.mkdirAll (goDir destination),
            FsOp.create (goPathClean (condTempPath env destination)),
            FsOp.writeBody (goPathClean (condTempPath env destination)) r.body,
            FsOp.rename (goPathClean (condTempPath env destination)) destination,
            FsOp.remove (goPathClean (condTempPath env destination))])) := by
  rcases hh : env.http with _ | r
  · left
    delta downloadFileConditional
    rw [hh]
  · refine Or.inr ⟨r, rfl, ?_⟩
    delta downloadFileConditional
    rw [hh]
    dsimp only
    split
    · exact Or.inl rfl
    split
    · exact Or.inr (Or.inl rfl)
    split
    · right; right; left; rfl
    split
    · right; right; right; left; rfl
    split
    · right; right; right; left; rfl
    split
    · right; right; right; right; left; rfl
    rcases condEpilogue_cases env destination (goPathClean (condTempPath env destination))
        r.etag r.lastModified
        [FsOp.mkdirAll (goDir destination),
         FsOp.create (goPathClean (condTempPath env destination)),
         FsOp.writeBody (goPathClean (condTempPath env destination)) r.body]
      with h | h | h | h <;> rw [h]
    · right; right; right; right; right; left; rfl
    · right; right; right; right; right; right; left; rfl
    · right; right; right; right; right; right; right; left; rfl
    · right; right; right; right; right; right; right; right; rfl

/-- **C1** (atomic publish): for every run of `DownloadFileConditional`,
(i) every create / body-stream / chtimes / remove targets the temp file
and every rename is exactly `rename tmp destination`, (ii) at most one
rename occurs, (iii) once the temp file is created its removal is
scheduled on every exit path, (iv) a fetch that reaches `200 OK` and
succeeds streams the body into the temp file first and only then
renames it over the destination, and (v) the temp file lives in the
destination directory under the name
`.tmp.<basename>.<nanos>.<rand>` with the random integer in `[0, 1000)`. -/
theorem downloadFileConditional_atomic_publish (env : CondEnv) (destination : String) :
    (∀ op ∈ (downloadFileConditional env destination).2,
       OpSafe (goPathClean (condTempPath env destination)) destination op) ∧
    ((downloadFileConditional env destination).2.countP FsOp.isRename ≤ 1) ∧
    (FsOp.create (goPathClean (condTempPath env destination)) ∈
        (downloadFileConditional env destination).2 →
      FsOp.remove (goPathClean (condTempPath env destination)) ∈
        (downloadFileConditional env destination).2) ∧
    (∀ r : HttpResp, env.http = HttpOutcome.response r →
      (downloadFileConditional env destination).1.isErr = false →
      (downloadFileConditional env destination).1.notModified = false →
      (downloadFileConditional env destination).2 =
          [FsOp.mkdirAll (goDir destination),
           FsOp.create (goPathClean (condTempPath env destination)),
           FsOp.writeBody (goPathClean (condTempPath env destination)) r.body,
           FsOp.rename (goPathClean (condTempPath env destination)) destination,
           FsOp.remove (goPathClean (condTempPath env destination))] ∨
        (downloadFileConditional env destination).2 =
          [FsOp.mkdirAll (goDir destination),
           FsOp.create (goPathClean (condTempPath env destination)),
           FsOp.writeBody (goPathClean (condTempPath env destination)) r.body,
           FsOp.chtimes (goPathClean (condTempPath env destination)) env.lmTime,
           FsOp.rename (goPathClean (condTempPath env destination)) destination,
           FsOp.remove (goPathClean (condTempPath env destination))]) ∧
    (∃ n, n < 1000 ∧
      goPathClean (condTempPath env destination) =
        goPathClean (goJoin (goDir (goPathClean destination))
          (".tmp." ++ goBase (goPathClean destination) ++ "." ++
            toString env.nanos ++ "." ++ toString n))) := by
  obtain hmaster := dfc_cases env destination
  refine ⟨?_, ?_, ?_, ?_, ⟨env.rand % 1000, Nat.mod_lt _ (by norm_num), rfl⟩⟩
  · rcases hmaster with h | ⟨r, hr, h⟩
    · simp [h, OpSafe]
    · rcases h with h | h | h | h | h | h | h | h | h <;>
        simp [h, OpSafe, List.forall_mem_cons]
  · rcases hmaster with h | ⟨r, hr, h⟩
    · rw [h]; simp [List.countP_cons, FsOp.isRename]
    · rcases h with h | h | h | h | h | h | h | h | h <;>
        (rw [h]; simp [List.countP_cons, FsOp.isRename])
  · rcases hmaster with h | ⟨r, hr, h⟩
    · simp [h]
    · rcases h with h | h | h | h | h | h | h | h | h <;> simp [h]
  · intro r' hr' hne hnm
    rcases hmaster with h | ⟨r, hr, h⟩
    · rw [h] at hne; simp at hne
    · rcases h with h | h | h | h | h | h | h | h | h
      · rw [h] at hnm; simp at hnm
      · rw [h] at hne; simp at hne
      · rw [h] at hne; simp at hne
      · rw [h] at hne; simp at hne
      · rw [h] at hne; simp at hne
      · rw [h] at hne; simp at hne
      · rw [h] at hne; simp at hne
      · rw [hr] at hr'; injection hr' with hx; subst hx; rw [h]; exact Or.inr rfl
      · rw [hr] at hr'; injection hr' with hx; subst hx; rw [h]; exact Or.inl rfl

/-- The fetcher on a transport error (part_000:99-103). -/
lemma dfc_transport (env : CondEnv) (dest : String)
    (hr : env.http = HttpOutcome.transportError) :
    downloadFileConditional env dest = (⟨502, "", "", false, true⟩, []) := by
  delta downloadFileConditional
  rw [hr]

/-- The fetcher on `304 Not Modified` (part_000:109-112): no disk write. -/
lemma dfc_304 (env : CondEnv) (r : HttpResp) (dest : String)
    (hr : env.http = HttpOutcome.response r) (h : r.status = 304) :
    downloadFileConditional env dest = (⟨304, r.etag, r.lastModified, true, false⟩, []) := by
  delta downloadFileConditional
  rw [hr]
  dsimp only
  rw [if_pos h]

/-- The fetcher on a non-2xx, non-304 response (part_000:114-118): the
upstream status is propagated with an error, no disk write. -/
lemma dfc_httpError (env : CondEnv) (r : HttpResp) (dest : String)
    (hr : env.http = HttpOutcome.response r) (h304 : r.status ≠ 304) (h200 : r.status ≠ 200) :
    downloadFileConditional env dest =
      (⟨r.status, r.etag, r.lastModified, false, true⟩, []) := by
  delta downloadFileConditional
  rw [hr]
  dsimp only
  rw [if_neg h304, if_pos h200]

/-- The close/rename epilogue when both succeed. -/
lemma condCloseRename_success (env : CondEnv) (dest tmp e l : String) (ops : List FsOp)
    (hclose : env.closeOk = true) (hren : env.renameOk = true) :
    condCloseRename env dest tmp e l ops =
      (⟨200, e, l, false, false⟩, ops ++ [FsOp.rename tmp dest, FsOp.remove tmp]) := by
  delta condCloseRename
  rw [if_neg (by simp [hclose]), if_neg (by simp [hren])]

/-- The full epilogue returns the 200 result when every filesystem step
succeeds. -/
lemma condEpilogue_success_fst (env : CondEnv) (dest tmp e l : String) (aw : List FsOp)
    (hstat : env.statOk = true) (hcht : env.chtimesOk = true)
    (hclose : env.closeOk = true) (hren : env.renameOk = true) :
    (condEpilogue env dest tmp e l aw).1 = ⟨200, e, l, false, false⟩ := by
  delta condEpilogue
  split
  · rw [if_neg (by simp [hstat]), if_neg (by simp [hcht]),
      condCloseRename_success env dest tmp e l _ hclose hren]
  · rw [condCloseRename_success env dest tmp e l _ hclose hren]

/-- The fetcher on a 200 response reduces to the epilogue once the
directory, random draw, temp creation and body copy succeed. -/
lemma dfc_200 (env : CondEnv) (r : HttpResp) (dest : String)
    (hr : env.http = HttpOutcome.response r) (h200 : r.status = 200)
    (hm : env.mkdirOk = true) (hrand : env.randOk = true)
    (hcr : env.createOk = true) (hcp : env.copyOk = true) :
    downloadFileConditional env dest =
      condEpilogue env dest (goPathClean (condTempPath env dest)) r.etag r.lastModified
        [FsOp.mkdirAll (goDir dest),
         FsOp.create (goPathClean (condTempPath env dest)),
         FsOp.writeBody (goPathClean (condTempPath env dest)) r.body] := by
  delta downloadFileConditional
  rw [hr]
  dsimp only
  rw [if_neg (by omega), if_neg (by omega), if_neg (by simp [hm]),
    if_neg (by simp [hrand]), if_neg (by simp [hcr]), if_neg (by simp [hcp])]

/-- Witness for C1: a concrete successful 200 fetch of `"DATA"` into
`"a/b"` produces exactly the mkdir/create/stream/rename/remove trace
through the temp file `"a/.tmp.b.7.3"`. -/
theorem downloadFileConditional_atomic_publish_witness :
    (downloadFileConditional
        ⟨HttpOutcome.response ⟨200, "", "", "DATA"⟩, 7, 3,
         true, true, true, true, 0, false, 0, true, true, true, true⟩ "a/b").2 =
      [FsOp.mkdirAll (goDir "a/b"),
       FsOp.create (goPathClean (condTempPath
         ⟨HttpOutcome.response ⟨200, "", "", "DATA"⟩, 7, 3,
          true, true, true, true, 0, false, 0, true, true, true, true⟩ "a/b")),
       FsOp.writeBody (goPathClean (condTempPath
         ⟨HttpOutcome.response ⟨200, "", "", "DATA"⟩, 7, 3,
          true, true, true, true, 0, false, 0, true, true, true, true⟩ "a/b")) "DATA",
       FsOp.rename (goPathClean (condTempPath
         ⟨HttpOutcome.response ⟨200, "", "", "DATA"⟩, 7, 3,
          true, true, true, true, 0, false, 0, true, true, true, true⟩ "a/b")) "a/b",
       FsOp.remove (goPathClean (condTempPath
         ⟨HttpOutcome.response ⟨200, "", "", "DATA"⟩, 7, 3,
          true, true, true, true, 0, false, 0, true, true, true, true⟩ "a/b"))] ∨
    (downloadFileConditional
        ⟨HttpOutcome.response ⟨200, "", "", "DATA"⟩, 7, 3,
         true, true, true, true, 0, false, 0, true, true, true, true⟩ "a/b").2 =
      [FsOp.mkdirAll (goDir "a/b"),
       FsOp.create (goPathClean (condTempPath
         ⟨HttpOutcome.response ⟨200, "", "", "DATA"⟩, 7, 3,
          true, true, true, true, 0, false, 0, true, true, true, true⟩ "a/b")),
       FsOp.writeBody (goPathClean (condTempPath
         ⟨HttpOutcome.response ⟨200, "", "", "DATA"⟩, 7, 3,
          true, true, true, true, 0, false, 0, true, true, true, true⟩ "a/b")) "DATA",
       FsOp.chtimes (goPathClean (condTempPath
         ⟨HttpOutcome.response ⟨200, "", "", "DATA"⟩, 7, 3,
          true, true, true, true, 0, false, 0, true, true, true, true⟩ "a/b")) 0,
       FsOp.rename (goPathClean (condTempPath
         ⟨HttpOutcome.response ⟨200, "", "", "DATA"⟩, 7, 3,
          true, true, true, true, 0, false, 0, true, true, true, true⟩ "a/b")) "a/b",
       FsOp.remove (goPathClean (condTempPath
         ⟨HttpOutcome.response ⟨200, "", "", "DATA"⟩, 7, 3,
          true, true, true, true, 0, false, 0, true, true, true, true⟩ "a/b"))] :=
  (downloadFileConditional_atomic_publish
      ⟨HttpOutcome.response ⟨200, "", "", "DATA"⟩, 7, 3,
       true, true, true, true, 0, false, 0, true, true, true, true⟩ "a/b").2.2.2.1
    ⟨200, "", "", "DATA"⟩ rfl rfl rfl

lemma npmReadServe_fields (cs : String) (call : CondCall) (metaW : Option CacheMeta)
    (trAll : List FsOp) (dataFile ua baseURL key : String)
    (fs : String → Option String) (parse : String → Option (List (String × Json))) :
    (npmReadServe cs call metaW trAll dataFile ua baseURL key fs parse).cacheStatus = some cs ∧
    (npmReadServe cs call metaW trAll dataFile ua baseURL key fs parse).condCalls = [call] ∧
    (npmReadServe cs call metaW trAll dataFile ua baseURL key fs parse).metaWritten = metaW ∧
    (npmReadServe cs call metaW trAll dataFile ua baseURL key fs parse).fsTrace = trAll := by
  delta npmReadServe
  rcases happly : applyFsOps fs trAll dataFile with _ | payload
  · exact ⟨rfl, rfl, rfl, rfl⟩
  · dsimp only
    rcases hp : parse payload with _ | pk
    · exact ⟨rfl, rfl, rfl, rfl⟩
    · exact ⟨rfl, rfl, rfl, rfl⟩

lemma npmReadServe_served (cs : String) (call : CondCall) (metaW : Option CacheMeta)
    (trAll : List FsOp) (dataFile ua baseURL key : String)
    (fs : String → Option String) (parse : String → Option (List (String × Json))) :
    npmServed (npmReadServe cs call metaW trAll dataFile ua baseURL key fs parse)
      fs parse dataFile baseURL key := by
  delta npmServed npmReadServe
  rcases happly : applyFsOps fs trAll dataFile with _ | payload
  · exact Or.inr ⟨rfl, rfl⟩
  · dsimp only
    rcases hp : parse payload with _ | pk
    · exact Or.inr ⟨rfl, rfl⟩
    · exact Or.inl ⟨payload, pk, happly, hp, rfl, rfl⟩


/-- **C2** (conditional freshness classification): the cargo-index and
npm-packument handlers always call the Conditional Fetcher with the
stored validators (empty when no cache or sidecar exists); a `304`
yields `X-Cache-Status: HIT` with the existing file served and no
filesystem write by the fetcher; a successful `200` yields `MISS`, the
(new) file is served and the returned validators are persisted by
merge; a fetch error with no prior cache yields `ERROR` with the
fetcher's status propagated; a fetch error with a prior cache yields
`STALE` and the existing file is served. -/
theorem conditional_freshness_classification
    (src : CargoSource) (eps : CargoEndpoints)
    (dirRoot key scheme host rawStar query npmBase pkgRaw accept : String)
    (fs fs2 : String → Option String) (metaRead metaRead2 : CacheMeta)
    (env env2 : CondEnv) (parse : String → Option (List (String × Json)))
    (hbase : src.base ≠ "") (hend : cargoEndpointsFromSource src = some eps)
    (hne : cleanWildcard rawStar ≠ "") (hncfg : cleanWildcard rawStar ≠ "config.json")
    (hpkg : npmPackageName pkgRaw ≠ "") :
    (cargoIndexRespond (some src) dirRoot key scheme host rawStar query fs metaRead
        env).condCalls =
      [⟨cargoIndexURL eps rawStar query,
        (if (fs (cargoIndexDest dirRoot key rawStar)).isSome then metaRead
         else (⟨"", ""⟩ : CacheMeta)).etag,
        (if (fs (cargoIndexDest dirRoot key rawStar)).isSome then metaRead
         else (⟨"", ""⟩ : CacheMeta)).lastModified⟩] ∧
    (∀ r : HttpResp, env.http = HttpOutcome.response r → r.status = 304 →
      (cargoIndexRespond (some src) dirRoot key scheme host rawStar query fs metaRead
          env).cacheStatus = some "HIT" ∧
      (cargoIndexRespond (some src) dirRoot key scheme host rawStar query fs metaRead
          env).status = 200 ∧
      (cargoIndexRespond (some src) dirRoot key scheme host rawStar query fs metaRead
          env).body = Body.file (cargoIndexDest dirRoot key rawStar) ∧
      (downloadFileConditional env (cargoIndexDest dirRoot key rawStar)).2 = []) ∧
    (∀ r : HttpResp, env.http = HttpOutcome.response r → r.status = 200 →
      env.mkdirOk = true → env.randOk = true → env.createOk = true → env.copyOk = true →
      env.statOk = true → env.chtimesOk = true → env.closeOk = true → env.renameOk = true →
      (cargoIndexRespond (some src) dirRoot key scheme host rawStar query fs metaRead
          env).cacheStatus = some "MISS" ∧
      (cargoIndexRespond (some src) dirRoot key scheme host rawStar query fs metaRead
          env).status = 200 ∧
      (cargoIndexRespond (some src) dirRoot key scheme host rawStar query fs metaRead
          env).body = Body.file (cargoIndexDest dirRoot key rawStar) ∧
      (cargoIndexRespond (some src) dirRoot key scheme host rawStar query fs metaRead
          env).metaWritten =
        (if r.etag ≠ "" || r.lastModified ≠ "" then
          some ⟨if r.etag ≠ "" then r.etag
                else (if (fs (cargoIndexDest dirRoot key rawStar)).isSome then metaRead
                      else (⟨"", ""⟩ : CacheMeta)).etag,
                if r.lastModified ≠ "" then r.lastModified
                else (if (fs (cargoIndexDest dirRoot key rawStar)).isSome then metaRead
                      else (⟨"", ""⟩ : CacheMeta)).lastModified⟩
         else none)) ∧
    ((downloadFileConditional env (cargoIndexDest dirRoot key rawStar)).1.isErr = true →
      fs (cargoIndexDest dirRoot key rawStar) = none →
      (cargoIndexRespond (some src) dirRoot key scheme host rawStar query fs metaRead
          env).cacheStatus = some "ERROR" ∧
      (cargoIndexRespond (some src) dirRoot key scheme host rawStar query fs metaRead
          env).status =
        (downloadFileConditional env (cargoIndexDest dirRoot key rawStar)).1.code ∧
      (cargoIndexRespond (some src) dirRoot key scheme host rawStar query fs metaRead
          env).body = Body.text "Please check logs...") ∧
    ((downloadFileConditional env (cargoIndexDest dirRoot key rawStar)).1.isErr = true →
      (fs (cargoIndexDest dirRoot key rawStar)).isSome = true →
      (cargoIndexRespond (some src) dirRoot key scheme host rawStar query fs metaRead
          env).cacheStatus = some "STALE" ∧
      (cargoIndexRespond (some src) dirRoot key scheme host rawStar query fs metaRead
          env).status = 200 ∧
      (cargoIndexRespond (some src) dirRoot key scheme host rawStar query fs metaRead
          env).body = Body.file (cargoIndexDest dirRoot key rawStar)) ∧
    (npmMetadataRespond npmBase dirRoot key scheme host pkgRaw accept query fs2 metaRead2
        env2 parse).condCalls =
      [⟨npmMetadataURL npmBase pkgRaw query,
        (if (fs2 (npmDataFile dirRoot key pkgRaw accept query)).isSome then metaRead2
         else (⟨"", ""⟩ : CacheMeta)).etag,
        (if (fs2 (npmDataFile dirRoot key pkgRaw accept query)).isSome then metaRead2
         else (⟨"", ""⟩ : CacheMeta)).lastModified⟩] ∧
    (∀ r : HttpResp, env2.http = HttpOutcome.response r → r.status = 304 →
      (npmMetadataRespond npmBase dirRoot key scheme host pkgRaw accept query fs2 metaRead2
          env2 parse).cacheStatus = some "HIT" ∧
      (downloadFileConditional env2 (npmDataFile dirRoot key pkgRaw accept query)).2 = [] ∧
      npmServed
        (npmMetadataRespond npmBase dirRoot key scheme host pkgRaw accept query fs2 metaRead2
          env2 parse) fs2 parse (npmDataFile dirRoot key pkgRaw accept query)
        (scheme ++ "://" ++ host) key) ∧
    (∀ r : HttpResp, env2.http = HttpOutcome.response r → r.status = 200 →
      env2.mkdirOk = true → env2.randOk = true → env2.createOk = true → env2.copyOk = true →
      env2.statOk = true → env2.chtimesOk = true → env2.closeOk = true → env2.renameOk = true →
      (npmMetadataRespond npmBase dirRoot key scheme host pkgRaw accept query fs2 metaRead2
          env2 parse).cacheStatus = some "MISS" ∧
      (npmMetadataRespond npmBase dirRoot key scheme host pkgRaw accept query fs2 metaRead2
          env2 parse).metaWritten =
        (if r.etag ≠ "" || r.lastModified ≠ "" then
          some ⟨if r.etag ≠ "" then r.etag
                else (if (fs2 (npmDataFile dirRoot key pkgRaw accept query)).isSome then metaRead2
                      else (⟨"", ""⟩ : CacheMeta)).etag,
                if r.lastModified ≠ "" then r.lastModified
                else (if (fs2 (npmDataFile dirRoot key pkgRaw accept query)).isSome then metaRead2
                      else (⟨"", ""⟩ : CacheMeta)).lastModified⟩
         else none) ∧
      npmServed
        (npmMetadataRespond npmBase dirRoot key scheme host pkgRaw accept query fs2 metaRead2
          env2 parse) fs2 parse (npmDataFile dirRoot key pkgRaw accept query)
        (scheme ++ "://" ++ host) key) ∧
    ((downloadFileConditional env2 (npmDataFile dirRoot key pkgRaw accept query)).1.isErr = true →
      fs2 (npmDataFile dirRoot key pkgRaw accept query) = none →
      (npmMetadataRespond npmBase dirRoot key scheme host pkgRaw accept query fs2 metaRead2
          env2 parse).cacheStatus = some "ERROR" ∧
      (npmMetadataRespond npmBase dirRoot key scheme host pkgRaw accept query fs2 metaRead2
          env2 parse).status =
        (downloadFileConditional env2 (npmDataFile dirRoot key pkgRaw accept query)).1.code ∧
      (npmMetadataRespond npmBase dirRoot key scheme host pkgRaw accept query fs2 metaRead2
          env2 parse).body = Body.text "Please check logs...") ∧
    ((downloadFileConditional env2 (npmDataFile dirRoot key pkgRaw accept query)).1.isErr = true →
      (fs2 (npmDataFile dirRoot key pkgRaw accept query)).isSome = true →
      (npmMetadataRespond npmBase dirRoot key scheme host pkgRaw accept query fs2 metaRead2
          env2 parse).cacheStatus = some "STALE" ∧
      npmServed
        (npmMetadataRespond npmBase dirRoot key scheme host pkgRaw accept query fs2 metaRead2
          env2 parse) fs2 parse (npmDataFile dirRoot key pkgRaw accept query)
        (scheme ++ "://" ++ host) key) := by
  refine ⟨?_, ?_, ?_, ?_, ?_, ?_, ?_, ?_, ?_, ?_⟩
  · delta cargoIndexRespond
    dsimp only
    rw [if_neg hbase, hend]
    dsimp only
    rw [if_neg hne, if_neg hncfg]
    by_cases hb : (downloadFileConditional env (cargoIndexDest dirRoot key rawStar)).1.isErr
    · rw [if_pos hb]
      by_cases hc : (fs (cargoIndexDest dirRoot key rawStar)).isSome
      · rw [if_neg (by simp [hc])]
      · rw [if_pos (by simp [Bool.not_eq_true] at hc ⊢; exact hc)]
    · rw [if_neg hb]
  · intro r hr h304
    delta cargoIndexRespond
    dsimp only
    rw [if_neg hbase, hend]
    dsimp only
    rw [if_neg hne, if_neg hncfg, dfc_304 env r _ hr h304]
    exact ⟨rfl, rfl, rfl, rfl⟩
  · intro r hr h200 hm hrand hcr hcp hstat hcht hclose hren
    delta cargoIndexRespond
    dsimp only
    rw [if_neg hbase, hend]
    dsimp only
    rw [if_neg hne, if_neg hncfg, dfc_200 env r _ hr h200 hm hrand hcr hcp,
      condEpilogue_success_fst env _ _ _ _ _ hstat hcht hclose hren]
    exact ⟨rfl, rfl, rfl, rfl⟩
  · intro herr hfs
    delta cargoIndexRespond
    dsimp only
    rw [if_neg hbase, hend]
    dsimp only
    rw [if_neg hne, if_neg hncfg, if_pos herr, hfs]
    exact ⟨rfl, rfl, rfl⟩
  · intro herr hfs
    delta cargoIndexRespond
    dsimp only
    rw [if_neg hbase, hend]
    dsimp only
    rw [if_neg hne, if_neg hncfg, if_pos herr, if_neg (by simp [hfs])]
    exact ⟨rfl, rfl, rfl⟩
  · delta npmMetadataRespond
    dsimp only
    rw [if_neg hpkg]
    by_cases hb : ((downloadFileConditional env2
        (npmDataFile dirRoot key pkgRaw accept query)).1.isErr &&
        !(fs2 (npmDataFile dirRoot key pkgRaw accept query)).isSome) = true
    · rw [if_pos hb]
    · rw [if_neg hb]
      exact (npmReadServe_fields _ _ _ _ _ _ _ _ _ _).2.1
  · intro r hr h304
    delta npmMetadataRespond
    dsimp only
    rw [if_neg hpkg, dfc_304 env2 r _ hr h304]
    refine ⟨(npmReadServe_fields _ _ _ _ _ _ _ _ _ _).1, rfl,
      npmReadServe_served _ _ _ _ _ _ _ _ _ _⟩
  · intro r hr h200 hm hrand hcr hcp hstat hcht hclose hren
    delta npmMetadataRespond
    dsimp only
    rw [if_neg hpkg, dfc_200 env2 r _ hr h200 hm hrand hcr hcp,
      condEpilogue_success_fst env2 _ _ _ _ _ hstat hcht hclose hren]
    refine ⟨(npmReadServe_fields _ _ _ _ _ _ _ _ _ _).1,
      (npmReadServe_fields _ _ _ _ _ _ _ _ _ _).2.2.1,
      npmReadServe_served _ _ _ _ _ _ _ _ _ _⟩
  · intro herr hfs
    delta npmMetadataRespond
    dsimp only
    rw [if_neg hpkg, if_pos (by rw [herr, hfs]; rfl)]
    exact ⟨rfl, rfl, rfl⟩
  · intro herr hfs
    delta npmMetadataRespond
    dsimp only
    rw [if_neg hpkg, if_neg (by simp [herr, hfs]), herr]
    exact ⟨(npmReadServe_fields _ _ _ _ _ _ _ _ _ _).1,
      npmReadServe_served _ _ _ _ _ _ _ _ _ _⟩


/-- Witness for C2: a concrete 304 revalidation serves the cache with
`HIT` on both the cargo index and the npm packument endpoints. -/
theorem conditional_freshness_classification_witness :
    (cargoIndexRespond (some ⟨"https://up", "", "", ""⟩) "d" "k" "http" "h" "se/rd/serde" ""
        (fun _ => some "x") ⟨"abc", "lm"⟩
        ⟨HttpOutcome.response ⟨304, "", "", ""⟩, 0, 0, true, true, true, true, 0, false, 0, true, true, true, true⟩).cacheStatus = some "HIT" ∧
    (cargoIndexRespond (some ⟨"https://up", "", "", ""⟩) "d" "k" "http" "h" "se/rd/serde" ""
        (fun _ => some "x") ⟨"abc", "lm"⟩
        ⟨HttpOutcome.response ⟨304, "", "", ""⟩, 0, 0, true, true, true, true, 0, false, 0, true, true, true, true⟩).status = 200 ∧
    (npmMetadataRespond "https://reg" "d" "k" "http" "h" "left-pad" "" "" (fun _ => none)
        ⟨"", ""⟩
        ⟨HttpOutcome.response ⟨304, "", "", ""⟩, 0, 0, true, true, true, true, 0, false, 0, true, true, true, true⟩
        (fun _ => none)).cacheStatus = some "HIT" := by
  have h := conditional_freshness_classification
    ⟨"https://up", "", "", ""⟩
    ⟨"https://up/index", "https://up/api/v1/crates", "https://up/api"⟩
    "d" "k" "http" "h" "se/rd/serde" "" "https://reg" "left-pad" ""
    (fun _ => some "x") (fun _ => none) ⟨"abc", "lm"⟩ ⟨"", ""⟩
    ⟨HttpOutcome.response ⟨304, "", "", ""⟩, 0, 0, true, true, true, true, 0, false, 0, true, true, true, true⟩
    ⟨HttpOutcome.response ⟨304, "", "", ""⟩, 0, 0, true, true, true, true, 0, false, 0, true, true, true, true⟩
    (fun _ => none)
    (by decide) (by decide) (by decide) (by decide) (by decide)
  exact ⟨(h.2.1 ⟨304, "", "", ""⟩ rfl rfl).1, (h.2.1 ⟨304, "", "", ""⟩ rfl rfl).2.1,
    (h.2.2.2.2.2.2.1 ⟨304, "", "", ""⟩ rfl rfl).1⟩

theorem validator_merge_sidecar
    (src : CargoSource) (eps : CargoEndpoints)
    (dirRoot key scheme host rawStar query npmBase pkgRaw accept : String)
    (fs fs2 : String → Option String) (metaRead metaRead2 : CacheMeta)
    (env env2 : CondEnv) (parse : String → Option (List (String × Json)))
    (hbase : src.base ≠ "") (hend : cargoEndpointsFromSource src = some eps)
    (hne : cleanWildcard rawStar ≠ "") (hncfg : cleanWildcard rawStar ≠ "config.json")
    (hpkg : npmPackageName pkgRaw ≠ "") :
    ((downloadFileConditional env (cargoIndexDest dirRoot key rawStar)).1.isErr = false →
      (cargoIndexRespond (some src) dirRoot key scheme host rawStar query fs metaRead
          env).metaWritten =
        (if (downloadFileConditional env (cargoIndexDest dirRoot key rawStar)).1.newETag ≠ "" ||
            (downloadFileConditional env (cargoIndexDest dirRoot key rawStar)).1.newLastModified ≠ "" then
          some ⟨if (downloadFileConditional env (cargoIndexDest dirRoot key rawStar)).1.newETag ≠ ""
                then (downloadFileConditional env (cargoIndexDest dirRoot key rawStar)).1.newETag
                else (if (fs (cargoIndexDest dirRoot key rawStar)).isSome then metaRead
                      else (⟨"", ""⟩ : CacheMeta)).etag,
                if (downloadFileConditional env (cargoIndexDest dirRoot key rawStar)).1.newLastModified ≠ ""
                then (downloadFileConditional env (cargoIndexDest dirRoot key rawStar)).1.newLastModified
                else (if (fs (cargoIndexDest dirRoot key rawStar)).isSome then metaRead
                      else (⟨"", ""⟩ : CacheMeta)).lastModified⟩
         else none)) ∧
    ((downloadFileConditional env (cargoIndexDest dirRoot key rawStar)).1.isErr = true →
      (cargoIndexRespond (some src) dirRoot key scheme host rawStar query fs metaRead
          env).metaWritten = none) ∧
    ((downloadFileConditional env2 (npmDataFile dirRoot key pkgRaw accept query)).1.isErr = false →
      (npmMetadataRespond npmBase dirRoot key scheme host pkgRaw accept query fs2 metaRead2
          env2 parse).metaWritten =
        (if (downloadFileConditional env2 (npmDataFile dirRoot key pkgRaw accept query)).1.newETag ≠ "" ||
            (downloadFileConditional env2 (npmDataFile dirRoot key pkgRaw accept query)).1.newLastModified ≠ "" then
          some ⟨if (downloadFileConditional env2 (npmDataFile dirRoot key pkgRaw accept query)).1.newETag ≠ ""
                then (downloadFileConditional env2 (npmDataFile dirRoot key pkgRaw accept query)).1.newETag
                else (if (fs2 (npmDataFile dirRoot key pkgRaw accept query)).isSome then metaRead2
                      else (⟨"", ""⟩ : CacheMeta)).etag,
                if (downloadFileConditional env2 (npmDataFile dirRoot key pkgRaw accept query)).1.newLastModified ≠ ""
                then (downloadFileConditional env2 (npmDataFile dirRoot key pkgRaw accept query)).1.newLastModified
                else (if (fs2 (npmDataFile dirRoot key pkgRaw accept query)).isSome then metaRead2
                      else (⟨"", ""⟩ : CacheMeta)).lastModified⟩
         else none)) ∧
    ((downloadFileConditional env2 (npmDataFile dirRoot key pkgRaw accept query)).1.isErr = true →
      (npmMetadataRespond npmBase dirRoot key scheme host pkgRaw accept query fs2 metaRead2
          env2 parse).metaWritten = none) := by
  refine ⟨?_, ?_, ?_, ?_⟩
  · intro herr
    delta cargoIndexRespond
    dsimp only
    rw [if_neg hbase, hend]
    dsimp only
    rw [if_neg hne, if_neg hncfg, if_neg (by simp [herr])]
  · intro herr
    delta cargoIndexRespond
    dsimp only
    rw [if_neg hbase, hend]
    dsimp only
    rw [if_neg hne, if_neg hncfg, if_pos herr]
    by_cases hc : (fs (cargoIndexDest dirRoot key rawStar)).isSome
    · rw [if_neg (by simp [hc])]
    · rw [if_pos (by simp [Bool.not_eq_true] at hc ⊢; exact hc)]
  · intro herr
    delta npmMetadataRespond
    dsimp only
    rw [if_neg hpkg, herr]
    exact (npmReadServe_fields _ _ _ _ _ _ _ _ _ _).2.2.1
  · intro herr
    delta npmMetadataRespond
    dsimp only
    rw [if_neg hpkg, herr]
    by_cases hc : (fs2 (npmDataFile dirRoot key pkgRaw accept query)).isSome
    · rw [if_neg (by simp [hc])]
      exact (npmReadServe_fields _ _ _ _ _ _ _ _ _ _).2.2.1
    · rw [if_pos (by simp [Bool.not_eq_true] at hc ⊢; exact hc)]


/-- Witness for C10: a 304 revalidation that returns a new ETag and no
Last-Modified merges the new ETag with the stored Last-Modified. -/
theorem validator_merge_sidecar_witness :
    (cargoIndexRespond (some ⟨"https://up", "", "", ""⟩) "d" "k" "http" "h" "se/rd/serde" ""
        (fun _ => some "x") ⟨"old", "L"⟩
        ⟨HttpOutcome.response ⟨304, "W/new", "", ""⟩, 0, 0, true, true, true, true, 0, false, 0, true, true, true, true⟩).metaWritten = some ⟨"W/new", "L"⟩ := by
  have h := validator_merge_sidecar
    ⟨"https://up", "", "", ""⟩
    ⟨"https://up/index", "https://up/api/v1/crates", "https://up/api"⟩
    "d" "k" "http" "h" "se/rd/serde" "" "https://reg" "left-pad" ""
    (fun _ => some "x") (fun _ => none) ⟨"old", "L"⟩ ⟨"", ""⟩
    ⟨HttpOutcome.response ⟨304, "W/new", "", ""⟩, 0, 0, true, true, true, true, 0, false, 0, true, true, true, true⟩
    ⟨HttpOutcome.response ⟨304, "W/new", "", ""⟩, 0, 0, true, true, true, true, 0, false, 0, true, true, true, true⟩
    (fun _ => none)
    (by decide) (by decide) (by decide) (by decide) (by decide)
  exact (h.1 rfl).trans rfl

/-- **C3** (counterexample): the Go proxy info handler, on an upstream
failure with the cache file present, labels the response `HIT` — not
`STALE` as the claim requires — and on failure with no cache file it
answers with the fetcher status, the body `410 Gone`, and **no**
`X-Cache-Status: ERROR` header. -/
theorem degraded_serve_counterexample :
    (goProxyInfoRespond "https://proxy" "d" "k" "mod/@v/v1.0.0.info"
        (PlainResult.fail 502) true).cacheStatus = some "HIT" ∧
    (goProxyInfoRespond "https://proxy" "d" "k" "mod/@v/v1.0.0.info"
        (PlainResult.fail 502) true).cacheStatus ≠ some "STALE" ∧
    (goProxyInfoRespond "https://proxy" "d" "k" "mod/@v/v1.0.0.info"
        (PlainResult.fail 502) true).status = 200 ∧
    (goProxyInfoRespond "https://proxy" "d" "k" "mod/@v/v1.0.0.info"
        (PlainResult.fail 502) false).cacheStatus = none ∧
    (goProxyInfoRespond "https://proxy" "d" "k" "mod/@v/v1.0.0.info"
        (PlainResult.fail 502) false).status = 502 ∧
    (goProxyInfoRespond "https://proxy" "d" "k" "mod/@v/v1.0.0.info"
        (PlainResult.fail 502) false).body = Body.text "410 Gone\n" :=
  ⟨rfl, by decide, rfl, rfl, rfl, rfl⟩

/-- **C3** (amended): on an upstream fetch failure, the cargo crate,
npm tarball, npm search and rubygems handlers serve the cached copy
with 200 and `X-Cache-Status: STALE` when it exists, and propagate the
fetcher status with `X-Cache-Status: ERROR` when it does not; the Go
proxy handlers deviate — a degraded serve is labelled `HIT`
(info/mod/list/latest) or gets no cache-status header (zip), and
failure without a cached copy yields the fetcher status with body
`410 Gone` and no `X-Cache-Status` header at all. -/
theorem degraded_serve_amended
    (src : CargoSource) (eps : CargoEndpoints)
    (base dirRoot key crate version rawStar query npmBase mp vp : String)
    (fs : String → Option String) (statMtime : Option Int) (now : Int) (s : Nat)
    (hbase : src.base ≠ "") (hend : cargoEndpointsFromSource src = some eps)
    (hcr : crate ≠ "") (hv : version ≠ "")
    (hnoCrate : (fs (cargoCrateDest dirRoot key crate version)).isSome = false)
    (hnoTar : (fs (npmTarballDest dirRoot key rawStar)).isSome = false)
    (hnoGem : fs (dirRoot ++ "/rubygems/" ++ key ++ "/" ++
      (if query ≠ "" then goJoinList ["_query", sha256Hex query, cleanWildcard rawStar]
       else cleanWildcard rawStar)) = none)
    (hgemPath : cleanWildcard rawStar ≠ "") (hdot : cleanWildcard rawStar ≠ ".")
    (hsplit : strSplitOn rawStar "/@v/" = [mp, vp])
    (hnoZip : (fs (dirRoot ++ "/goproxy/" ++ key ++ "/" ++ mp ++ "/@v/" ++
      trimSuffixStr vp ".zip" ++ ".zip")).isSome = false)
    (hstale : statMtime = none) :
    ((cargoCrateRespond (some src) dirRoot key crate version fs (.fail s)
        true).cacheStatus = some "STALE" ∧
     (cargoCrateRespond (some src) dirRoot key crate version fs (.fail s)
        true).status = 200 ∧
     (cargoCrateRespond (some src) dirRoot key crate version fs (.fail s) true).body =
       Body.file (cargoCrateDest dirRoot key crate version)) ∧
    ((cargoCrateRespond (some src) dirRoot key crate version fs (.fail s)
        false).cacheStatus = some "ERROR" ∧
     (cargoCrateRespond (some src) dirRoot key crate version fs (.fail s) false).status = s) ∧
    ((npmTarballRespond npmBase dirRoot key rawStar fs (.fail s) true).cacheStatus =
        some "STALE" ∧
     (npmTarballRespond npmBase dirRoot key rawStar fs (.fail s) true).status = 200 ∧
     (npmTarballRespond npmBase dirRoot key rawStar fs (.fail s) true).body =
       Body.file (npmTarballDest dirRoot key rawStar)) ∧
    ((npmTarballRespond npmBase dirRoot key rawStar fs (.fail s) false).cacheStatus =
        some "ERROR" ∧
     (npmTarballRespond npmBase dirRoot key rawStar fs (.fail s) false).status = s) ∧
    ((npmSearchRespond npmBase dirRoot key query statMtime now (.fail s)
        true).cacheStatus = some "STALE" ∧
     (npmSearchRespond npmBase dirRoot key query statMtime now (.fail s) true).status = 200) ∧
    ((npmSearchRespond npmBase dirRoot key query statMtime now (.fail s)
        false).cacheStatus = some "ERROR" ∧
     (npmSearchRespond npmBase dirRoot key query statMtime now (.fail s) false).status = s) ∧
    ((rubyGemsRespond base dirRoot key rawStar query fs ⟨false, .fail s, true⟩).cacheStatus =
        some "STALE" ∧
     (rubyGemsRespond base dirRoot key rawStar query fs ⟨false, .fail s, false⟩).cacheStatus =
        some "ERROR" ∧
     (rubyGemsRespond base dirRoot key rawStar query fs ⟨false, .fail s, false⟩).status = s) ∧
    ((goProxyInfoRespond base dirRoot key rawStar (.fail s) true).cacheStatus = some "HIT" ∧
     (goProxyInfoRespond base dirRoot key rawStar (.fail s) true).status = 200 ∧
     (goProxyInfoRespond base dirRoot key rawStar (.fail s) false).cacheStatus = none ∧
     (goProxyInfoRespond base dirRoot key rawStar (.fail s) false).status = s ∧
     (goProxyInfoRespond base dirRoot key rawStar (.fail s) false).body =
       Body.text "410 Gone\n") ∧
    ((goProxyZipRespond base dirRoot key rawStar fs (.fail s) true).cacheStatus = none ∧
     (goProxyZipRespond base dirRoot key rawStar fs (.fail s) false).status = s ∧
     (goProxyZipRespond base dirRoot key rawStar fs (.fail s) false).body =
       Body.text "410 Gone\n") ∧
    ((goProxyLatestRespond base dirRoot key rawStar statMtime now (.fail s)
        true).cacheStatus = some "HIT" ∧
     (goProxyLatestRespond base dirRoot key rawStar statMtime now (.fail s) false).status = s ∧
     (goProxyLatestRespond base dirRoot key rawStar statMtime now (.fail s) false).body =
       Body.text "410 Gone\n") := by
  refine ⟨?_, ?_, ?_, ?_, ?_, ?_, ?_, ?_, ?_, ?_⟩
  · delta cargoCrateRespond
    dsimp only
    rw [if_neg hbase, hend]
    dsimp only
    rw [if_neg (by simp [hcr, hv]), if_neg (by simp [hnoCrate])]
    exact ⟨rfl, rfl, rfl⟩
  · delta cargoCrateRespond
    dsimp only
    rw [if_neg hbase, hend]
    dsimp only
    rw [if_neg (by simp [hcr, hv]), if_neg (by simp [hnoCrate])]
    exact ⟨rfl, rfl⟩
  · delta npmTarballRespond
    dsimp only
    rw [if_neg (by simp [hnoTar])]
    exact ⟨rfl, rfl, rfl⟩
  · delta npmTarballRespond
    dsimp only
    rw [if_neg (by simp [hnoTar])]
    exact ⟨rfl, rfl⟩
  · delta npmSearchRespond
    dsimp only
    rw [hstale]
    exact ⟨rfl, rfl⟩
  · delta npmSearchRespond
    dsimp only
    rw [hstale]
    exact ⟨rfl, rfl⟩
  · delta rubyGemsRespond
    dsimp only
    have hnoGem2 := hnoGem
    simp only [ne_eq] at hnoGem2
    rw [ite_not] at hnoGem2
    simp [hgemPath, hdot, hnoGem2]
  · delta goProxyInfoRespond
    dsimp only
    rw [hsplit]
    exact ⟨rfl, rfl, rfl, rfl, rfl⟩
  · delta goProxyZipRespond
    dsimp only
    rw [hsplit]
    dsimp only
    simp [hnoZip]
  · delta goProxyLatestRespond
    dsimp only
    rw [hstale]
    exact ⟨rfl, rfl, rfl⟩


/-- **C4** (counterexample): `GoProxyInfo` consults no cache before
fetching — even when the `.info` file is on disk, a request issues one
upstream call and labels the response `MISS`, so go info (and mod/list)
are not immutable-from-disk endpoints. -/
theorem immutable_serves_counterexample :
    (goProxyInfoRespond "https://proxy" "d" "k" "mod/@v/v1.0.0.info"
        (PlainResult.ok 200 "data") true).plainCalls =
      ["https://proxy/mod/@v/v1.0.0.info"] ∧
    (goProxyInfoRespond "https://proxy" "d" "k" "mod/@v/v1.0.0.info"
        (PlainResult.ok 200 "data") true).cacheStatus = some "MISS" ∧
    (goProxyInfoRespond "https://proxy" "d" "k" "mod/@v/v1.0.0.info"
        (PlainResult.ok 200 "data") true).cacheStatus ≠ some "HIT" :=
  ⟨rfl, rfl, by decide⟩

/-- **C4** (amended): the endpoints that do serve immutably from disk
are go zip, cargo crate download, npm tarballs and rubygems gem
artifacts: when the cache file exists they answer `HIT` with the file
and issue no upstream request; go info/mod/list always fetch.  For go
zip, a first fetch on an empty cache issues exactly one upstream
request and publishes the file, after which a second request is a `HIT`
with no upstream request. -/
theorem immutable_serves_from_disk_amended
    (src : CargoSource) (eps : CargoEndpoints)
    (base dirRoot key crate version rawStar npmBase mp vp data : String)
    (fs : String → Option String) (outcome outcome2 : PlainResult) (ea ea2 : Bool)
    (hbase : src.base ≠ "") (hend : cargoEndpointsFromSource src = some eps)
    (hcr : crate ≠ "") (hv : version ≠ "")
    (hsplit : strSplitOn rawStar "/@v/" = [mp, vp]) :
    ((fs (dirRoot ++ "/goproxy/" ++ key ++ "/" ++ mp ++ "/@v/" ++
        trimSuffixStr vp ".zip" ++ ".zip")).isSome = true →
      (goProxyZipRespond base dirRoot key rawStar fs outcome ea).cacheStatus = some "HIT" ∧
      (goProxyZipRespond base dirRoot key rawStar fs outcome ea).plainCalls = [] ∧
      (goProxyZipRespond base dirRoot key rawStar fs outcome ea).body =
        Body.file (dirRoot ++ "/goproxy/" ++ key ++ "/" ++ mp ++ "/@v/" ++
          trimSuffixStr vp ".zip" ++ ".zip")) ∧
    ((fs (cargoCrateDest dirRoot key crate version)).isSome = true →
      (cargoCrateRespond (some src) dirRoot key crate version fs outcome
          ea).cacheStatus = some "HIT" ∧
      (cargoCrateRespond (some src) dirRoot key crate version fs outcome ea).plainCalls = [] ∧
      (cargoCrateRespond (some src) dirRoot key crate version fs outcome ea).body =
        Body.file (cargoCrateDest dirRoot key crate version)) ∧
    ((fs (npmTarballDest dirRoot key rawStar)).isSome = true →
      (npmTarballRespond npmBase dirRoot key rawStar fs outcome ea).cacheStatus =
        some "HIT" ∧
      (npmTarballRespond npmBase dirRoot key rawStar fs outcome ea).plainCalls = []) ∧
    (cleanWildcard rawStar ≠ "" → cleanWildcard rawStar ≠ "." →
      strStartsWith (cleanWildcard rawStar) "gems/" = true →
      strEndsWith (cleanWildcard rawStar) ".gem" = true →
      (fs (dirRoot ++ "/rubygems/" ++ key ++ "/" ++ cleanWildcard rawStar)).isSome = true →
      (rubyGemsRespond base dirRoot key rawStar "" fs ⟨false, outcome, ea⟩).cacheStatus =
        some "HIT" ∧
      (rubyGemsRespond base dirRoot key rawStar "" fs ⟨false, outcome, ea⟩).plainCalls = []) ∧
    (fs (dirRoot ++ "/goproxy/" ++ key ++ "/" ++ mp ++ "/@v/" ++
        trimSuffixStr vp ".zip" ++ ".zip") = none →
      (goProxyZipRespond base dirRoot key rawStar fs (.ok 200 data) ea).plainCalls =
        [base ++ "/" ++ mp ++ "/@v/" ++ trimSuffixStr vp ".zip" ++ ".zip"] ∧
      (goProxyZipRespond base dirRoot key rawStar fs (.ok 200 data) ea).cacheStatus =
        some "MISS" ∧
      (goProxyZipRespond base dirRoot key rawStar
          (applyFsOps fs (goProxyZipRespond base dirRoot key rawStar fs (.ok 200 data)
            ea).fsTrace) outcome2 ea2).cacheStatus = some "HIT" ∧
      (goProxyZipRespond base dirRoot key rawStar
          (applyFsOps fs (goProxyZipRespond base dirRoot key rawStar fs (.ok 200 data)
            ea).fsTrace) outcome2 ea2).plainCalls = []) := by
  refine ⟨?_, ?_, ?_, ?_, ?_⟩
  · intro hc
    delta goProxyZipRespond
    dsimp only
    rw [hsplit]
    dsimp only
    rw [if_pos hc]
    exact ⟨rfl, rfl, rfl⟩
  · intro hc
    delta cargoCrateRespond
    dsimp only
    rw [if_neg hbase, hend]
    dsimp only
    rw [if_neg (by simp [hcr, hv]), if_pos hc]
    exact ⟨rfl, rfl, rfl⟩
  · intro hc
    delta npmTarballRespond
    dsimp only
    rw [if_pos hc]
    exact ⟨rfl, rfl⟩
  · intro hgne hgdot hg1 hg2 hc
    delta rubyGemsRespond
    dsimp only
    simp [hgne, hgdot, hg1, hg2, hc]
  · intro hfs0
    have h1 : (goProxyZipRespond base dirRoot key rawStar fs (.ok 200 data) ea).fsTrace =
        [FsOp.writeFile (dirRoot ++ "/goproxy/" ++ key ++ "/" ++ mp ++ "/@v/" ++
          trimSuffixStr vp ".zip" ++ ".zip") data] := by
      delta goProxyZipRespond
      dsimp only
      rw [hsplit]
      dsimp only
      rw [if_neg (by simp [hfs0])]
    refine ⟨?_, ?_, ?_, ?_⟩
    · delta goProxyZipRespond
      dsimp only
      rw [hsplit]
      dsimp only
      rw [if_neg (by simp [hfs0])]
    · delta goProxyZipRespond
      dsimp only
      rw [hsplit]
      dsimp only
      rw [if_neg (by simp [hfs0])]
    · rw [h1]
      delta goProxyZipRespond
      dsimp only
      rw [hsplit]
      dsimp only
      rw [if_pos (by simp [applyFsOps])]
    · rw [h1]
      delta goProxyZipRespond
      dsimp only
      rw [hsplit]
      dsimp only
      rw [if_pos (by simp [applyFsOps])]


/-- Witness for the amended C3: concrete degraded serves — the cargo
crate handler answers `STALE`, the go info handler answers `HIT`. -/
theorem degraded_serve_amended_witness :
    (cargoCrateRespond (some ⟨"https://up", "", "", ""⟩) "d" "k" "serde" "1.0.0"
        (fun _ => none) (PlainResult.fail 502) true).cacheStatus = some "STALE" ∧
    (goProxyInfoRespond "B" "d" "k" "m/@v/v1.zip" (PlainResult.fail 502)
        true).cacheStatus = some "HIT" := by
  have h := degraded_serve_amended
    ⟨"https://up", "", "", ""⟩
    ⟨"https://up/index", "https://up/api/v1/crates", "https://up/api"⟩
    "B" "d" "k" "serde" "1.0.0" "m/@v/v1.zip" "" "nb" "m" "v1.zip"
    (fun _ => none) none 0 502
    (by decide) (by decide) (by decide) (by decide) rfl rfl rfl
    (by decide) (by decide) rfl rfl rfl
  exact ⟨h.1.1, h.2.2.2.2.2.2.2.1.1⟩

/-- Witness for the amended C4: with the files on disk, go zip and the
cargo crate download serve `HIT` with no upstream call. -/
theorem immutable_serves_from_disk_amended_witness :
    (goProxyZipRespond "B" "d" "k" "m/@v/v1.zip" (fun _ => some "x")
        (PlainResult.ok 200 "Z") true).cacheStatus = some "HIT" ∧
    (goProxyZipRespond "B" "d" "k" "m/@v/v1.zip" (fun _ => some "x")
        (PlainResult.ok 200 "Z") true).plainCalls = [] ∧
    (cargoCrateRespond (some ⟨"https://up", "", "", ""⟩) "d" "k" "serde" "1.0.0"
        (fun _ => some "x") (PlainResult.ok 200 "Z") true).cacheStatus = some "HIT" := by
  have h := immutable_serves_from_disk_amended
    ⟨"https://up", "", "", ""⟩
    ⟨"https://up/index", "https://up/api/v1/crates", "https://up/api"⟩
    "B" "d" "k" "serde" "1.0.0" "m/@v/v1.zip" "nb" "m" "v1.zip" "Z"
    (fun _ => some "x") (PlainResult.ok 200 "Z") (PlainResult.ok 200 "Z") true true
    (by decide) (by decide) (by decide) (by decide) rfl
  exact ⟨(h.1 rfl).1, (h.1 rfl).2.1, (h.2.1 rfl).1⟩

/-- **C6** (TTL freshness): `GoProxyLatest` serves from cache with
`X-Cache-Status: HIT` and no upstream call iff the cached file's mtime
is within `goLatestTTL` (1 hour) of now, and `handleNpmSearch` iff the
mtime is within `npmSearchTTL` (10 minutes); otherwise each issues
exactly one plain fetch of its upstream URL, and on a successful fetch
the npm search handler writes the body and bumps the cache file's mtime
to the current time. -/
theorem ttl_freshness
    (base dirRoot key rawStar query npmBase : String)
    (statMtime statMtime2 : Option Int) (now : Int)
    (outcome outcome2 : PlainResult) (ea ea2 : Bool) :
    ((goProxyLatestRespond base dirRoot key rawStar statMtime now outcome ea).cacheStatus =
        some "HIT" ∧
     (goProxyLatestRespond base dirRoot key rawStar statMtime now outcome ea).plainCalls =
        [] ↔
      ∃ m, statMtime = some m ∧ now - goLatestTTL < m) ∧
    ((¬ ∃ m, statMtime = some m ∧ now - goLatestTTL < m) →
      (goProxyLatestRespond base dirRoot key rawStar statMtime now outcome ea).plainCalls =
        [base ++ "/" ++ trimSuffixStr rawStar "/@latest" ++ "/@latest"]) ∧
    ((npmSearchRespond npmBase dirRoot key query statMtime2 now outcome2 ea2).cacheStatus =
        some "HIT" ∧
     (npmSearchRespond npmBase dirRoot key query statMtime2 now outcome2 ea2).plainCalls =
        [] ↔
      ∃ m, statMtime2 = some m ∧ now - m < npmSearchTTL) ∧
    ((¬ ∃ m, statMtime2 = some m ∧ now - m < npmSearchTTL) →
      (npmSearchRespond npmBase dirRoot key query statMtime2 now outcome2 ea2).plainCalls =
        [if query ≠ "" then trimSuffixStr npmBase "/" ++ "/-/v1/search" ++ "?" ++ query
         else trimSuffixStr npmBase "/" ++ "/-/v1/search"]) ∧
    ((¬ ∃ m, statMtime2 = some m ∧ now - m < npmSearchTTL) →
      ∀ s data, outcome2 = PlainResult.ok s data →
      (npmSearchRespond npmBase dirRoot key query statMtime2 now outcome2 ea2).fsTrace =
        [FsOp.writeFile (npmSearchDest dirRoot key query) data,
         FsOp.chtimes (npmSearchDest dirRoot key query) now]) := by
  refine ⟨?_, ?_, ?_, ?_, ?_⟩
  · delta goProxyLatestRespond
    dsimp only
    rcases statMtime with _ | m
    · rcases outcome with ⟨s, data⟩ | s <;> cases ea <;> simp
    · by_cases hv : now - goLatestTTL < m
      · simp [hv]
      · rcases outcome with ⟨s, data⟩ | s <;> cases ea <;> simp [hv]
  · intro hstale
    delta goProxyLatestRespond
    dsimp only
    rcases statMtime with _ | m
    · rcases outcome with ⟨s, data⟩ | s <;> cases ea <;> simp
    · have hv : ¬ (now - goLatestTTL < m) := fun hc => hstale ⟨m, rfl, hc⟩
      rcases outcome with ⟨s, data⟩ | s <;> cases ea <;> simp [hv]
  · delta npmSearchRespond
    dsimp only
    rcases statMtime2 with _ | m
    · rcases outcome2 with ⟨s, data⟩ | s <;> cases ea2 <;> simp
    · by_cases hv : now - m < npmSearchTTL
      · simp [hv]
      · rcases outcome2 with ⟨s, data⟩ | s <;> cases ea2 <;> simp [hv]
  · intro hstale
    delta npmSearchRespond
    dsimp only
    rcases statMtime2 with _ | m
    · rcases outcome2 with ⟨s, data⟩ | s <;> cases ea2 <;> simp
    · have hv : ¬ (now - m < npmSearchTTL) := fun hc => hstale ⟨m, rfl, hc⟩
      rcases outcome2 with ⟨s, data⟩ | s <;> cases ea2 <;> simp [hv]
  · intro hstale s data hok
    subst hok
    delta npmSearchRespond
    dsimp only
    rcases statMtime2 with _ | m
    · simp
    · have hv : ¬ (now - m < npmSearchTTL) := fun hc => hstale ⟨m, rfl, hc⟩
      simp [hv]

/-- Witness for C6: with no cached file (mtime absent), both handlers
contact the upstream once and the npm search handler records the write
and mtime bump. -/
theorem ttl_freshness_witness :
    (¬ ∃ m, (none : Option Int) = some m ∧ (0 : Int) - goLatestTTL < m) ∧
    (goProxyLatestRespond "https://h" "/c" "g" "m/@latest" none 0
        (PlainResult.ok 200 "B") false).plainCalls =
      ["https://h" ++ "/" ++ trimSuffixStr "m/@latest" "/@latest" ++ "/@latest"] ∧
    (npmSearchRespond "https://r" "/c" "g" "" none 0
        (PlainResult.ok 200 "B") false).fsTrace =
      [FsOp.writeFile (npmSearchDest "/c" "g" "") "B",
       FsOp.chtimes (npmSearchDest "/c" "g" "") 0] := by
  have h := ttl_freshness "https://h" "/c" "g" "m/@latest" "" "https://r"
    none none 0 (PlainResult.ok 200 "B") (PlainResult.ok 200 "B") false false
  exact ⟨by simp, h.2.1 (by simp), h.2.2.2.2 (by simp) 200 "B" rfl⟩

/-- Helper: with a valid source and a wildcard cleaning to
`config.json`, `CargoIndex` reduces to the generated-config branch
(cargo.go:66-95). -/
theorem cargoIndex_config_case
    (source : CargoSource) (eps : CargoEndpoints)
    (dirRoot key scheme host rawStar query : String)
    (fs : String → Option String) (metaRead : CacheMeta) (env : CondEnv)
    (hbase : ¬ source.base = "")
    (heps : cargoEndpointsFromSource source = some eps)
    (hclean : cleanWildcard rawStar = "config.json") :
    cargoIndexRespond (some source) dirRoot key scheme host rawStar query fs metaRead env =
      match fs (goJoinList [dirRoot, "cargo", key, "index", "config.json"]) with
      | some content =>
        { status := 200, cacheStatus := some "HIT",
          contentType := some "application/json", body := .bytes content }
      | none =>
        { status := 200, cacheStatus := some "MISS",
          contentType := some "application/json",
          body := .bytes (cargoConfigJSON (scheme ++ "://" ++ host) key),
          fsTrace := [.mkdirAll (goDir (goJoinList [dirRoot, "cargo", key, "index", "config.json"])),
                      .writeFile (goJoinList [dirRoot, "cargo", key, "index", "config.json"])
                        (cargoConfigJSON (scheme ++ "://" ++ host) key)] } := by
  delta cargoIndexRespond
  dsimp only
  rw [if_neg hbase, heps]
  dsimp only
  rw [hclean, if_neg (by decide : ¬ ("config.json" = "")), if_pos rfl]

/-- **C7** (generated cargo config.json): with a configured source and a
wildcard cleaning to `config.json`, a first GET with no cached file
answers 200 `MISS` with `Content-Type: application/json` and the
generated body, contacts no upstream (no conditional and no plain
fetches), and writes the body to disk; replaying the handler on the
filesystem updated by that trace answers 200 `HIT` with a byte-identical
body and again contacts no upstream. -/
theorem generated_cargo_config
    (source : CargoSource) (eps : CargoEndpoints)
    (dirRoot key scheme host rawStar query : String)
    (fs : String → Option String) (metaRead metaRead2 : CacheMeta) (env env2 : CondEnv)
    (hbase : ¬ source.base = "")
    (heps : cargoEndpointsFromSource source = some eps)
    (hclean : cleanWildcard rawStar = "config.json")
    (hmiss : fs (goJoinList [dirRoot, "cargo", key, "index", "config.json"]) = none) :
    (cargoIndexRespond (some source) dirRoot key scheme host rawStar query fs metaRead env).status = 200 ∧
    (cargoIndexRespond (some source) dirRoot key scheme host rawStar query fs metaRead env).cacheStatus = some "MISS" ∧
    (cargoIndexRespond (some source) dirRoot key scheme host rawStar query fs metaRead env).contentType = some "application/json" ∧
    (cargoIndexRespond (some source) dirRoot key scheme host rawStar query fs metaRead env).body =
      Body.bytes (cargoConfigJSON (scheme ++ "://" ++ host) key) ∧
    (cargoIndexRespond (some source) dirRoot key scheme host rawStar query fs metaRead env).condCalls = [] ∧
    (cargoIndexRespond (some source) dirRoot key scheme host rawStar query fs metaRead env).plainCalls = [] ∧
    (cargoIndexRespond (some source) dirRoot key scheme host rawStar query
        (applyFsOps fs (cargoIndexRespond (some source) dirRoot key scheme host rawStar query fs metaRead env).fsTrace)
        metaRead2 env2).status = 200 ∧
    (cargoIndexRespond (some source) dirRoot key scheme host rawStar query
        (applyFsOps fs (cargoIndexRespond (some source) dirRoot key scheme host rawStar query fs metaRead env).fsTrace)
        metaRead2 env2).cacheStatus = some "HIT" ∧
    (cargoIndexRespond (some source) dirRoot key scheme host rawStar query
        (applyFsOps fs (cargoIndexRespond (some source) dirRoot key scheme host rawStar query fs metaRead env).fsTrace)
        metaRead2 env2).contentType = some "application/json" ∧
    (cargoIndexRespond (some source) dirRoot key scheme host rawStar query
        (applyFsOps fs (cargoIndexRespond (some source) dirRoot key scheme host rawStar query fs metaRead env).fsTrace)
        metaRead2 env2).body =
      (cargoIndexRespond (some source) dirRoot key scheme host rawStar query fs metaRead env).body ∧
    (cargoIndexRespond (some source) dirRoot key scheme host rawStar query
        (applyFsOps fs (cargoIndexRespond (some source) dirRoot key scheme host rawStar query fs metaRead env).fsTrace)
        metaRead2 env2).condCalls = [] ∧
    (cargoIndexRespond (some source) dirRoot key scheme host rawStar query
        (applyFsOps fs (cargoIndexRespond (some source) dirRoot key scheme host rawStar query fs metaRead env).fsTrace)
        metaRead2 env2).plainCalls = [] := by
  have h1 := cargoIndex_config_case source eps dirRoot key scheme host rawStar query
    fs metaRead env hbase heps hclean
  rw [hmiss] at h1
  dsimp only at h1
  have hfs2 : applyFsOps fs
      (cargoIndexRespond (some source) dirRoot key scheme host rawStar query fs metaRead env).fsTrace
      (goJoinList [dirRoot, "cargo", key, "index", "config.json"]) =
      some (cargoConfigJSON (scheme ++ "://" ++ host) key) := by
    rw [h1]
    simp [applyFsOps]
  have h2 := cargoIndex_config_case source eps dirRoot key scheme host rawStar query
    (applyFsOps fs (cargoIndexRespond (some source) dirRoot key scheme host rawStar query fs metaRead env).fsTrace)
    metaRead2 env2 hbase heps hclean
  rw [hfs2] at h2
  dsimp only at h2
  rw [h2, h1]
  exact ⟨rfl, rfl, rfl, rfl, rfl, rfl, rfl, rfl, rfl, rfl, rfl, rfl⟩

/-- Witness for C7 at a concrete source and empty cache. -/
theorem generated_cargo_config_witness :
    cleanWildcard "config.json" = "config.json" ∧
    ((fun _ => (none : Option String)) (goJoinList ["d", "cargo", "k", "index", "config.json"]) = none) ∧
    (cargoIndexRespond (some ⟨"https://up", "", "", ""⟩) "d" "k" "http" "h" "config.json" ""
        (fun _ => none) ⟨"", ""⟩
        ⟨HttpOutcome.response ⟨304, "", "", ""⟩, 0, 0, true, true, true, true, 0, false, 0, true, true, true, true⟩).cacheStatus = some "MISS" ∧
    (cargoIndexRespond (some ⟨"https://up", "", "", ""⟩) "d" "k" "http" "h" "config.json" ""
        (applyFsOps (fun _ => none)
          (cargoIndexRespond (some ⟨"https://up", "", "", ""⟩) "d" "k" "http" "h" "config.json" ""
            (fun _ => none) ⟨"", ""⟩
            ⟨HttpOutcome.response ⟨304, "", "", ""⟩, 0, 0, true, true, true, true, 0, false, 0, true, true, true, true⟩).fsTrace)
        ⟨"", ""⟩
        ⟨HttpOutcome.response ⟨304, "", "", ""⟩, 0, 0, true, true, true, true, 0, false, 0, true, true, true, true⟩).cacheStatus = some "HIT" := by
  have h := generated_cargo_config
    ⟨"https://up", "", "", ""⟩
    ⟨"https://up/index", "https://up/api/v1/crates", "https://up/api"⟩
    "d" "k" "http" "h" "config.json" ""
    (fun _ => none) ⟨"", ""⟩ ⟨"", ""⟩
    ⟨HttpOutcome.response ⟨304, "", "", ""⟩, 0, 0, true, true, true, true, 0, false, 0, true, true, true, true⟩
    ⟨HttpOutcome.response ⟨304, "", "", ""⟩, 0, 0, true, true, true, true, 0, false, 0, true, true, true, true⟩
    (by decide) (by decide) (by decide) rfl
  exact ⟨by decide, rfl, h.2.1, h.2.2.2.2.2.2.2.1⟩

/-- Helper: folding `headerAdd` over a value list appends the values
under the canonical key. -/
theorem foldl_headerAdd (vs : List String) (acc : List (String × String)) (k : String) :
    vs.foldl (fun a v => headerAdd a k v) acc =
      acc ++ vs.map (fun v => (canonicalHeaderKey k, v)) := by
  induction vs generalizing acc with
  | nil => simp
  | cons v rest ih =>
    rw [List.foldl_cons, ih]
    simp [headerAdd]

/-- Helper: one step of `copyCargoHeaders`. -/
theorem copyCargoHeaders_cons (dst : List (String × String))
    (p : String × List String) (src : List (String × List String)) :
    copyCargoHeaders dst (p :: src) =
      copyCargoHeaders
        (if cargoHopByHopHeaders.any (fun h => h = canonicalHeaderKey p.1) then dst
         else dst ++ p.2.map (fun v => (canonicalHeaderKey p.1, v))) src := by
  delta copyCargoHeaders
  dsimp only [List.foldl]
  by_cases hp : cargoHopByHopHeaders.any (fun h => h = canonicalHeaderKey p.1) = true
  · rw [if_pos hp, if_pos hp]
  · rw [if_neg hp, if_neg hp, foldl_headerAdd]

/-- Membership in the copied header list: exactly the upstream entries
whose canonical key is not hop-by-hop, stored under the canonical key. -/
theorem copyCargoHeaders_mem (src : List (String × List String))
    (dst : List (String × String)) (k v : String) :
    (k, v) ∈ copyCargoHeaders dst src ↔
      (k, v) ∈ dst ∨ ∃ p, p ∈ src ∧ k = canonicalHeaderKey p.1 ∧ v ∈ p.2 ∧
        canonicalHeaderKey p.1 ∉ cargoHopByHopHeaders := by
  induction src generalizing dst with
  | nil => simp [copyCargoHeaders]
  | cons p rest ih =>
    rw [copyCargoHeaders_cons, ih]
    by_cases hp : cargoHopByHopHeaders.any (fun h => h = canonicalHeaderKey p.1) = true
    · have hmem : canonicalHeaderKey p.1 ∈ cargoHopByHopHeaders := by
        simpa [List.any_eq_true] using hp
      rw [if_pos hp]
      constructor
      · rintro (h | ⟨q, hq, hrest⟩)
        · exact Or.inl h
        · exact Or.inr ⟨q, List.mem_cons_of_mem p hq, hrest⟩
      · rintro (h | ⟨q, hq, hk, hv, hnot⟩)
        · exact Or.inl h
        · rcases List.mem_cons.mp hq with hq | hq
          · subst hq; exact absurd hmem hnot
          · exact Or.inr ⟨q, hq, hk, hv, hnot⟩
    · have hmem : canonicalHeaderKey p.1 ∉ cargoHopByHopHeaders := by
        intro hc
        exact hp (List.any_eq_true.mpr ⟨_, hc, by simp⟩)
      rw [if_neg hp]
      constructor
      · rintro (h | ⟨q, hq, hrest⟩)
        · rcases List.mem_append.mp h with h | h
          · exact Or.inl h
          · rcases List.mem_map.mp h with ⟨v0, hv0, heq⟩
            rcases Prod.mk.injEq .. ▸ heq with ⟨hk, hv⟩
            exact Or.inr ⟨p, List.mem_cons_self p rest, hk.symm, hv ▸ hv0, hmem⟩
        · exact Or.inr ⟨q, List.mem_cons_of_mem p hq, hrest⟩
      · rintro (h | ⟨q, hq, hk, hv, hnot⟩)
        · exact Or.inl (List.mem_append.mpr (Or.inl h))
        · rcases List.mem_cons.mp hq with hq | hq
          · subst hq
            exact Or.inl (List.mem_append.mpr (Or.inr
              (List.mem_map.mpr ⟨v, hv, by rw [hk]⟩)))
          · exact Or.inr ⟨q, hq, hk, hv, hnot⟩

/-- **C8** (API pass-through header discipline): with a configured
source, `CargoAPIProxy` answers 405 to any method other than GET and
HEAD; on a GET pass-through its header list is exactly
`copyCargoHeaders [] upstreamHeaders`, whose members are precisely the
upstream entries whose canonical key is outside the hop-by-hop set
(stored under the canonical key), so no hop-by-hop header ever appears
in the response; and the Content-Type is the upstream one, defaulting to
`application/json` when upstream omits it. -/
theorem api_passthrough_header_discipline
    (source : CargoSource) (eps : CargoEndpoints)
    (method rawStar query : String) (r : HttpResp)
    (upstream : HttpOutcome) (upstreamHeaders : List (String × List String))
    (hbase : ¬ source.base = "")
    (heps : cargoEndpointsFromSource source = some eps) :
    (method ≠ "GET" → method ≠ "HEAD" →
      (cargoAPIProxyRespond (some source) method rawStar query upstream upstreamHeaders).status = 405) ∧
    ((cargoAPIProxyRespond (some source) "GET" rawStar query (.response r) upstreamHeaders).headers =
      copyCargoHeaders [] upstreamHeaders) ∧
    (∀ k v, (k, v) ∈ (cargoAPIProxyRespond (some source) "GET" rawStar query (.response r) upstreamHeaders).headers ↔
      ∃ p, p ∈ upstreamHeaders ∧ k = canonicalHeaderKey p.1 ∧ v ∈ p.2 ∧
        canonicalHeaderKey p.1 ∉ cargoHopByHopHeaders) ∧
    (∀ k v, (k, v) ∈ (cargoAPIProxyRespond (some source) "GET" rawStar query (.response r) upstreamHeaders).headers →
      k ∉ cargoHopByHopHeaders) ∧
    (headerGet upstreamHeaders "Content-Type" = "" →
      (cargoAPIProxyRespond (some source) "GET" rawStar query (.response r) upstreamHeaders).contentType =
        some "application/json") ∧
    (headerGet upstreamHeaders "Content-Type" ≠ "" →
      (cargoAPIProxyRespond (some source) "GET" rawStar query (.response r) upstreamHeaders).contentType =
        some (headerGet upstreamHeaders "Content-Type")) := by
  have hGET : cargoAPIProxyRespond (some source) "GET" rawStar query (.response r) upstreamHeaders =
      { status := r.status, headers := copyCargoHeaders [] upstreamHeaders,
        contentType := some (if headerGet upstreamHeaders "Content-Type" = "" then "application/json"
          else headerGet upstreamHeaders "Content-Type"),
        body := .bytes r.body,
        plainCalls := [if query ≠ "" then
            (if cleanWildcard rawStar ≠ "" then trimSuffixStr eps.api "/" ++ "/" ++ cleanWildcard rawStar
             else trimSuffixStr eps.api "/") ++ "?" ++ query
          else if cleanWildcard rawStar ≠ "" then trimSuffixStr eps.api "/" ++ "/" ++ cleanWildcard rawStar
          else trimSuffixStr eps.api "/"] } := by
    delta cargoAPIProxyRespond
    dsimp only
    rw [if_neg hbase, heps]
    dsimp only
    rw [if_neg (by decide : ¬ ((decide ¬ "GET" = "GET" && decide ¬ "GET" = "HEAD") = true))]
    rw [if_neg (by decide : ¬ (("GET" : String) = "HEAD"))]
  refine ⟨?_, ?_, ?_, ?_, ?_, ?_⟩
  · intro h1 h2
    delta cargoAPIProxyRespond
    dsimp only
    rw [if_neg hbase, heps]
    dsimp only
    rw [if_pos (by simp [h1, h2])]
  · rw [hGET]
  · intro k v
    rw [hGET]
    show (k, v) ∈ copyCargoHeaders [] upstreamHeaders ↔ _
    rw [copyCargoHeaders_mem]
    simp
  · intro k v hkv
    rw [hGET] at hkv
    replace hkv : (k, v) ∈ copyCargoHeaders [] upstreamHeaders := hkv
    rcases (copyCargoHeaders_mem upstreamHeaders [] k v).mp hkv with h | ⟨p, _, hk, _, hnot⟩
    · simp at h
    · exact hk ▸ hnot
  · intro hct
    rw [hGET]
    simp [hct]
  · intro hct
    rw [hGET]
    simp [hct]

/-- Witness for C8: a concrete source, a POST, and an upstream reply
holding a `connection` header and a regular header. -/
theorem api_passthrough_header_discipline_witness :
    (¬ (⟨"https://up", "", "", ""⟩ : CargoSource).base = "") ∧
    cargoEndpointsFromSource ⟨"https://up", "", "", ""⟩ =
      some ⟨"https://up/index", "https://up/api/v1/crates", "https://up/api"⟩ ∧
    (cargoAPIProxyRespond (some ⟨"https://up", "", "", ""⟩) "POST" "v1/crates" ""
        (.response ⟨200, "", "", "ok"⟩)
        [("connection", ["x"]), ("X-Res", ["1"])]).status = 405 ∧
    (cargoAPIProxyRespond (some ⟨"https://up", "", "", ""⟩) "GET" "v1/crates" ""
        (.response ⟨200, "", "", "ok"⟩)
        [("connection", ["x"]), ("X-Res", ["1"])]).headers =
      copyCargoHeaders [] [("connection", ["x"]), ("X-Res", ["1"])] ∧
    (cargoAPIProxyRespond (some ⟨"https://up", "", "", ""⟩) "GET" "v1/crates" ""
        (.response ⟨200, "", "", "ok"⟩)
        [("connection", ["x"]), ("X-Res", ["1"])]).contentType = some "application/json" := by
  have h := api_passthrough_header_discipline
    ⟨"https://up", "", "", ""⟩
    ⟨"https://up/index", "https://up/api/v1/crates", "https://up/api"⟩
    "POST" "v1/crates" "" ⟨200, "", "", "ok"⟩
    (.response ⟨200, "", "", "ok"⟩)
    [("connection", ["x"]), ("X-Res", ["1"])]
    (by decide) (by decide)
  exact ⟨by decide, by decide, h.1 (by decide) (by decide), h.2.1,
    h.2.2.2.2.1 (by decide)⟩

/-- Helper: a string prefixed with `/` starts with `/`. -/
theorem strStartsWith_slash (x : String) : strStartsWith ("/" ++ x) "/" = true := by
  simp [strStartsWith, String.data_append, List.isPrefixOf]

/-- Helper: a string prefixed with `/` is non-empty. -/
theorem append_slash_ne_empty (x : String) : ("/" ++ x : String) ≠ "" := by
  intro h
  have := congrArg String.data h
  simp [String.data_append] at this

/-- Helper: trimming the `/` prefix undoes prefixing with `/`. -/
theorem trimPrefixStr_slash (x : String) : trimPrefixStr ("/" ++ x) "/" = x := by
  rw [trimPrefixStr, if_pos]
  · show String.mk (("/" ++ x).data.drop "/".data.length) = x
    have hd : ("/" ++ x).data = '/' :: x.data := by simp [String.data_append]
    rw [hd]
    rfl
  · exact strStartsWith_slash x

/-- Invariant of `path.Clean` on rooted paths: starting from a stack of
good segments, the cleaning stack only ever holds good segments (never
`""`, `"."` or `".."`). -/
theorem goCleanCore_rooted_good (l : List String) :
    ∀ stack : List String, (∀ s ∈ stack, goodSeg s) →
      ∀ s ∈ goCleanCore true stack l, goodSeg s := by
  induction l with
  | nil =>
    intro stack hstack s hs
    simp only [goCleanCore] at hs
    exact hstack s (List.mem_reverse.mp hs)
  | cons a rest ih =>
    intro stack hstack s hs
    simp only [goCleanCore] at hs
    by_cases h1 : (decide (a = "") || decide (a = ".")) = true
    · rw [if_pos h1] at hs
      exact ih stack hstack s hs
    · rw [if_neg h1] at hs
      by_cases h2 : a = ".."
      · rw [if_pos h2] at hs
        rcases stack with _ | ⟨t, tl⟩
        · simp at hs
          exact ih [] (by simp) s hs
        · have ht : goodSeg t := hstack t (List.mem_cons_self t tl)
          dsimp only at hs
          rw [if_neg ht.2.2] at hs
          exact ih tl (fun x hx => hstack x (List.mem_cons_of_mem t hx)) s hs
      · rw [if_neg h2] at hs
        have h1' : ¬ (a = "") ∧ ¬ (a = ".") := by simpa [not_or] using h1
        refine ih (a :: stack) ?_ s hs
        intro x hx
        rcases List.mem_cons.mp hx with hx | hx
        · subst hx; exact ⟨h1'.1, h1'.2, h2⟩
        · exact hstack x hx

/-- The cleaned wildcard is an intercalation of good segments, so a
cache path derived from it cannot climb out of its subtree. -/
theorem cleanWildcard_intercalate (raw : String) :
    ∃ segs : List String, (∀ s ∈ segs, goodSeg s) ∧
      cleanWildcard raw = String.intercalate "/" segs := by
  have hp := append_slash_ne_empty (trimPrefixStr raw "/")
  have hr := strStartsWith_slash (trimPrefixStr raw "/")
  have hgood := goCleanCore_rooted_good
    (strSplitOn ("/" ++ trimPrefixStr raw "/") "/") [] (by simp)
  by_cases hout : String.intercalate "/"
      (goCleanCore true [] (strSplitOn ("/" ++ trimPrefixStr raw "/") "/")) = ""
  · refine ⟨[], by simp, ?_⟩
    delta cleanWildcard goPathClean
    dsimp only
    rw [if_neg hp, hr]
    rw [if_pos rfl, hout]
    rw [if_pos rfl]
    decide
  · refine ⟨goCleanCore true [] (strSplitOn ("/" ++ trimPrefixStr raw "/") "/"),
      hgood, ?_⟩
    delta cleanWildcard goPathClean
    dsimp only
    rw [if_neg hp, hr]
    rw [if_pos rfl, if_neg hout, trimPrefixStr_slash]

/-- **C9** counterexample: the claim says every request whose wildcard
is empty or `.` after cleaning is answered with 404, but `RubyGems` on
the wildcard `.` (which cleans to empty) answers 200 and serves the
dedicated `__root` cache key instead (rubygems.go:27-31). -/
theorem path_hygiene_counterexample :
    cleanWildcard "." = "" ∧
    (rubyGemsRespond "https://rubygems.org" "d" "k" "." "" (fun _ => none)
       ⟨false, PlainResult.ok 200 "x", false⟩).status = 200 ∧
    (rubyGemsRespond "https://rubygems.org" "d" "k" "." "" (fun _ => none)
       ⟨false, PlainResult.ok 200 "x", false⟩).body =
      Body.file ("d" ++ "/rubygems/" ++ "k" ++ "/" ++ "__root") := by
  refine ⟨by decide, ?_, ?_⟩ <;> rfl

/-- **C9** (amended — path hygiene): every cleaned wildcard is an
intercalation of segments none of which is `""`, `"."` or `".."`, so
the derived cache path stays inside the ecosystem subtree; the npm
proxy and the cargo index answer 404 when the wildcard cleans to empty;
the rubygems handler instead maps such requests to the dedicated cache
key `__root` and serves them normally (here shown for a successful
fetch on an empty cache: 200 `MISS` from the `__root` file). -/
theorem path_hygiene_amended
    (raw npmBase dirRoot key scheme host accept query base data : String)
    (fs : String → Option String) (nenv : NpmEnv)
    (source : CargoSource) (eps : CargoEndpoints)
    (metaRead : CacheMeta) (cenv : CondEnv)
    (hbase : ¬ source.base = "")
    (heps : cargoEndpointsFromSource source = some eps) :
    (∃ segs : List String, (∀ s ∈ segs, goodSeg s) ∧
      cleanWildcard raw = String.intercalate "/" segs) ∧
    (trimPrefixStr (goPathClean ("/" ++ trimSuffixStr (trimPrefixStr raw "/") "/")) "/" = "" →
      (npmProxyRespond npmBase dirRoot key scheme host raw accept query fs nenv).status = 404) ∧
    (cleanWildcard raw = "" →
      (cargoIndexRespond (some source) dirRoot key scheme host raw query fs metaRead cenv).status = 404) ∧
    (cleanWildcard raw = "" →
      (rubyGemsRespond base dirRoot key raw "" (fun _ => none)
         ⟨false, PlainResult.ok 200 data, false⟩).status = 200 ∧
      (rubyGemsRespond base dirRoot key raw "" (fun _ => none)
         ⟨false, PlainResult.ok 200 data, false⟩).cacheStatus = some "MISS" ∧
      (rubyGemsRespond base dirRoot key raw "" (fun _ => none)
         ⟨false, PlainResult.ok 200 data, false⟩).body =
        Body.file (dirRoot ++ "/rubygems/" ++ key ++ "/" ++ "__root")) := by
  refine ⟨cleanWildcard_intercalate raw, ?_, ?_, ?_⟩
  · intro hcl
    delta npmProxyRespond
    by_cases hraw : trimSuffixStr (trimPrefixStr raw "/") "/" = ""
    · rw [if_pos hraw]
    · rw [if_neg hraw, if_pos hcl]
  · intro hcl
    delta cargoIndexRespond
    dsimp only
    rw [if_neg hbase, heps]
    dsimp only
    rw [if_pos hcl]
  · intro hcl
    delta rubyGemsRespond
    dsimp only
    rw [hcl]
    simp

/-- Witness for the amended C9 at the wildcard `..`. -/
theorem path_hygiene_amended_witness :
    trimPrefixStr (goPathClean ("/" ++ trimSuffixStr (trimPrefixStr ".." "/") "/")) "/" = "" ∧
    cleanWildcard ".." = "" ∧
    (npmProxyRespond "https://reg" "d" "k" "http" "h" ".." "" "" (fun _ => none)
      ⟨⟨HttpOutcome.response ⟨304, "", "", ""⟩, 0, 0, true, true, true, true, 0, false, 0, true, true, true, true⟩,
       ⟨"", ""⟩, (fun _ => none), PlainResult.ok 200 "x", false, none, 0⟩).status = 404 ∧
    (cargoIndexRespond (some ⟨"https://up", "", "", ""⟩) "d" "k" "http" "h" ".." ""
      (fun _ => none) ⟨"", ""⟩
      ⟨HttpOutcome.response ⟨304, "", "", ""⟩, 0, 0, true, true, true, true, 0, false, 0, true, true, true, true⟩).status = 404 ∧
    (rubyGemsRespond "https://rb" "d" "k" ".." "" (fun _ => none)
      ⟨false, PlainResult.ok 200 "x", false⟩).status = 200 := by
  have h := path_hygiene_amended ".." "https://reg" "d" "k" "http" "h" "" "" "https://rb" "x"
    (fun _ => none)
    ⟨⟨HttpOutcome.response ⟨304, "", "", ""⟩, 0, 0, true, true, true, true, 0, false, 0, true, true, true, true⟩,
     ⟨"", ""⟩, (fun _ => none), PlainResult.ok 200 "x", false, none, 0⟩
    ⟨"https://up", "", "", ""⟩
    ⟨"https://up/index", "https://up/api/v1/crates", "https://up/api"⟩
    ⟨"", ""⟩
    ⟨HttpOutcome.response ⟨304, "", "", ""⟩, 0, 0, true, true, true, true, 0, false, 0, true, true, true, true⟩
    (by decide) (by decide)
  exact ⟨by decide, by decide, h.2.1 (by decide), h.2.2.1 (by decide),
    (h.2.2.2 (by decide)).1⟩

/-- Helper: `setJ` leaves every entry under a different key alone. -/
theorem setJ_mem_ne (fields : List (String × Json)) (k : String) (v : Json)
    (k0 : String) (j : Json) (hne : k0 ≠ k) :
    ((k0, j) ∈ setJ fields k v) ↔ (k0, j) ∈ fields := by
  induction fields with
  | nil => simp [setJ]
  | cons kv rest ih =>
    simp only [setJ, List.map_cons, List.mem_cons] at *
    by_cases hk : kv.1 = k
    · rw [if_pos hk]
      constructor
      · rintro (h | h)
        · exact absurd ((congrArg Prod.fst h).trans hk) hne
        · exact Or.inr (ih.mp h)
      · rintro (h | h)
        · exact absurd ((congrArg Prod.fst h).trans hk) hne
        · exact Or.inr (ih.mpr h)
    · rw [if_neg hk]
      constructor
      · rintro (h | h)
        · exact Or.inl h
        · exact Or.inr (ih.mp h)
      · rintro (h | h)
        · exact Or.inl h
        · exact Or.inr (ih.mpr h)

/-- Helper: `setJ` updates the looked-up value of an existing key. -/
theorem lookupJ_setJ_self (fields : List (String × Json)) (k : String) (v : Json)
    (w : Json) (h : lookupJ fields k = some w) :
    lookupJ (setJ fields k v) k = some v := by
  induction fields with
  | nil => simp [lookupJ] at h
  | cons kv rest ih =>
    by_cases hk : kv.1 = k
    · have hs : setJ (kv :: rest) k v = (kv.1, v) :: setJ rest k v := by
        simp [setJ, if_pos hk]
      rw [hs]
      simp [lookupJ, List.find?, hk]
    · have hd : decide (kv.1 = k) = false := decide_eq_false hk
      have h2 : lookupJ rest k = some w := by
        simp only [lookupJ, List.find?, hd] at h
        exact h
      have hs : setJ (kv :: rest) k v = kv :: setJ rest k v := by
        simp [setJ, if_neg hk]
      rw [hs]
      show Option.map (fun kv => kv.2)
        (List.find? (fun kv0 => kv0.1 = k) (kv :: setJ rest k v)) = some v
      simp only [List.find?, hd]
      exact ih h2

/-- The tarball rewrite mutates no top-level key other than
`versions`. -/
theorem rewriteNpmTarballsJ_mem_ne (pk : List (String × Json)) (baseURL key : String)
    (k0 : String) (j : Json) (hne : k0 ≠ "versions") :
    ((k0, j) ∈ (rewriteNpmTarballsJ pk baseURL key).1 ↔ (k0, j) ∈ pk) := by
  delta rewriteNpmTarballsJ
  rcases hv : lookupJ pk "versions" with _ | j0
  · exact Iff.rfl
  · rcases j0 with _ | b | n | s | elems | versions
    · exact Iff.rfl
    · exact Iff.rfl
    · exact Iff.rfl
    · exact Iff.rfl
    · exact Iff.rfl
    · dsimp only
      exact setJ_mem_ne pk "versions" _ k0 j hne

/-- The rewritten `versions` object maps each version key to the
per-version rewrite of its entry. -/
theorem rewriteNpmTarballsJ_versions (pk versionsFields : List (String × Json))
    (baseURL key : String)
    (hv : lookupJ pk "versions" = some (Json.obj versionsFields)) :
    lookupJ (rewriteNpmTarballsJ pk baseURL key).1 "versions" =
      some (Json.obj (versionsFields.map
        (fun kv => (kv.1, (rewriteVersionEntry baseURL key kv.2).1)))) := by
  delta rewriteNpmTarballsJ
  rw [hv]
  dsimp only
  rw [List.map_map]
  exact lookupJ_setJ_self pk "versions" _ _ hv

/-- The per-version rewrite when the whole chain matches: the new
tarball is `<base>/npm/<key><path>[?<query>]` with path and query taken
verbatim from the original URL, and only the `dist.tarball` field is
touched (via `setJ`). -/
theorem rewriteVersionEntry_hit (baseURL key : String)
    (vi dist : List (String × Json)) (t p q : String)
    (hdist : lookupJ vi "dist" = some (Json.obj dist))
    (htb : lookupJ dist "tarball" = some (Json.str t))
    (ht : t ≠ "") (hpq : parseURLPathQuery t = some (p, q)) (hp : p ≠ "") :
    rewriteVersionEntry baseURL key (Json.obj vi) =
      (Json.obj (setJ vi "dist" (Json.obj (setJ dist "tarball"
        (Json.str (baseURL ++ "/npm/" ++ key ++
          (if q ≠ "" then p ++ "?" ++ q else p)))))), true) := by
  delta rewriteVersionEntry
  dsimp only
  rw [hdist]
  dsimp only
  rw [htb]
  dsimp only
  rw [if_neg ht, hpq]
  dsimp only
  rw [if_neg hp]

/-- The per-version rewrite skip cases: a non-object version, a missing
or non-object `dist`, a missing or non-string `tarball`, an empty
tarball string, a tarball URL on which `url.Parse` errors, and a
tarball URL with an empty parsed path (opaque or authority-only) all
leave the version entry untouched. -/
theorem rewriteVersionEntry_skips (baseURL key : String) (v : Json)
    (vi dist : List (String × Json)) (t q : String) :
    ((∀ f, v ≠ Json.obj f) → rewriteVersionEntry baseURL key v = (v, false)) ∧
    (lookupJ vi "dist" = none →
      rewriteVersionEntry baseURL key (Json.obj vi) = (Json.obj vi, false)) ∧
    (∀ d, lookupJ vi "dist" = some d → (∀ f, d ≠ Json.obj f) →
      rewriteVersionEntry baseURL key (Json.obj vi) = (Json.obj vi, false)) ∧
    (lookupJ vi "dist" = some (Json.obj dist) → lookupJ dist "tarball" = none →
      rewriteVersionEntry baseURL key (Json.obj vi) = (Json.obj vi, false)) ∧
    (∀ tb, lookupJ vi "dist" = some (Json.obj dist) →
      lookupJ dist "tarball" = some tb → (∀ s, tb ≠ Json.str s) →
      rewriteVersionEntry baseURL key (Json.obj vi) = (Json.obj vi, false)) ∧
    (lookupJ vi "dist" = some (Json.obj dist) →
      lookupJ dist "tarball" = some (Json.str "") →
      rewriteVersionEntry baseURL key (Json.obj vi) = (Json.obj vi, false)) ∧
    (lookupJ vi "dist" = some (Json.obj dist) →
      lookupJ dist "tarball" = some (Json.str t) → t ≠ "" →
      parseURLPathQuery t = none →
      rewriteVersionEntry baseURL key (Json.obj vi) = (Json.obj vi, false)) ∧
    (lookupJ vi "dist" = some (Json.obj dist) →
      lookupJ dist "tarball" = some (Json.str t) → t ≠ "" →
      parseURLPathQuery t = some ("", q) →
      rewriteVersionEntry baseURL key (Json.obj vi) = (Json.obj vi, false)) := by
  refine ⟨?_, ?_, ?_, ?_, ?_, ?_, ?_, ?_⟩
  · intro hno
    rcases v with _ | b | n | s | elems | f
    · rfl
    · rfl
    · rfl
    · rfl
    · rfl
    · exact absurd rfl (hno f)
  · intro hd
    delta rewriteVersionEntry
    dsimp only
    rw [hd]
  · intro d hd hno
    delta rewriteVersionEntry
    dsimp only
    rw [hd]
    rcases d with _ | b | n | s | elems | f
    · rfl
    · rfl
    · rfl
    · rfl
    · rfl
    · exact absurd rfl (hno f)
  · intro hd htb
    delta rewriteVersionEntry
    dsimp only
    rw [hd]
    dsimp only
    rw [htb]
  · intro tb hd htb hno
    delta rewriteVersionEntry
    dsimp only
    rw [hd]
    dsimp only
    rw [htb]
    rcases tb with _ | b | n | s | elems | f
    · rfl
    · rfl
    · rfl
    · exact absurd rfl (hno s)
    · rfl
    · rfl
  · intro hd htb
    delta rewriteVersionEntry
    dsimp only
    rw [hd]
    dsimp only
    rw [htb]
    dsimp only
    rw [if_pos rfl]
  · intro hd htb ht hpq
    delta rewriteVersionEntry
    dsimp only
    rw [hd]
    dsimp only
    rw [htb]
    dsimp only
    rw [if_neg ht, hpq]
  · intro hd htb ht hpq
    delta rewriteVersionEntry
    dsimp only
    rw [hd]
    dsimp only
    rw [htb]
    dsimp only
    rw [if_neg ht, hpq]
    dsimp only
    rw [if_pos rfl]

/-- Helper: an unparseable cached payload yields `400 Metadata
error`. -/
theorem npmReadServe_parse_fail (cs : String) (call : CondCall) (metaW : Option CacheMeta)
    (trAll : List FsOp) (dataFile ua baseURL key : String)
    (fs : String → Option String) (parse : String → Option (List (String × Json)))
    (payload : String)
    (happ : applyFsOps fs trAll dataFile = some payload)
    (hpar : parse payload = none) :
    (npmReadServe cs call metaW trAll dataFile ua baseURL key fs parse).status = 400 ∧
    (npmReadServe cs call metaW trAll dataFile ua baseURL key fs parse).body =
      Body.text "Metadata error" := by
  delta npmReadServe
  rw [happ]
  dsimp only
  rw [hpar]
  exact ⟨rfl, rfl⟩

/-- Helper: a parseable cached payload yields 200 with the
tarball-rewritten document. -/
theorem npmReadServe_parse_ok (cs : String) (call : CondCall) (metaW : Option CacheMeta)
    (trAll : List FsOp) (dataFile ua baseURL key : String)
    (fs : String → Option String) (parse : String → Option (List (String × Json)))
    (payload : String) (pk2 : List (String × Json))
    (happ : applyFsOps fs trAll dataFile = some payload)
    (hpar : parse payload = some pk2) :
    (npmReadServe cs call metaW trAll dataFile ua baseURL key fs parse).status = 200 ∧
    (npmReadServe cs call metaW trAll dataFile ua baseURL key fs parse).body =
      Body.jsonDoc (Json.obj (rewriteNpmTarballsJ pk2 baseURL key).1) := by
  delta npmReadServe
  rw [happ]
  dsimp only
  rw [hpar]
  exact ⟨rfl, rfl⟩

/-- Off the error path, `handleNpmMetadata` is its read-parse-rewrite
tail applied to the data file. -/
theorem npmMetadataRespond_eq_readServe
    (npmBase dirRoot key scheme host rawPath accept query : String)
    (fs : String → Option String) (metaRead : CacheMeta) (env : CondEnv)
    (parse : String → Option (List (String × Json)))
    (hp : ¬ npmPackageName rawPath = "")
    (herr : ((downloadFileConditional env (npmDataFile dirRoot key rawPath accept query)).1.isErr &&
      !(fs (npmDataFile dirRoot key rawPath accept query)).isSome) = false) :
    ∃ cs call metaW trAll,
      npmMetadataRespond npmBase dirRoot key scheme host rawPath accept query fs metaRead env parse =
        npmReadServe cs call metaW trAll (npmDataFile dirRoot key rawPath accept query)
          ((npmAcceptHeader accept).2) (scheme ++ "://" ++ host) key fs parse := by
  delta npmMetadataRespond
  dsimp only
  rw [if_neg hp]
  rw [if_neg (by rw [herr]; exact Bool.false_ne_true)]
  exact ⟨_, _, _, _, rfl⟩

/-- **C5** counterexample: the claim says every string-valued
`versions.<ver>.dist.tarball` entry is replaced, but an empty tarball
string is string-valued and left untouched (npm.go:293-295 skips
`tarballURL == ""`), while the claimed replacement would be the
non-empty `<base>/npm/<key>`. -/
theorem packument_rewrite_counterexample :
    (rewriteNpmTarballsJ
      [("versions", Json.obj [("1.0.0",
        Json.obj [("dist", Json.obj [("tarball", Json.str "")])])])]
      "http://h" "k").1 =
      [("versions", Json.obj [("1.0.0",
        Json.obj [("dist", Json.obj [("tarball", Json.str "")])])])] ∧
    ("" : String) ≠ "http://h" ++ "/npm/" ++ "k" := by
  exact ⟨rfl, by decide⟩

/-- **C5** (amended — packument tarball rewrite): the rewrite mutates no
top-level key other than `versions`; each version entry whose chain
matches (version object, `dist` object, string `tarball`) and whose
tarball is a non-empty URL that `url.Parse` accepts with a non-empty
path is replaced by `<scheme>://<host>/npm/<key><path>[?<query>]`,
where the path is the percent-decoded `Path` of `url.Parse` and the
query its raw `RawQuery`, touching only the `dist.tarball` field;
non-object versions, missing or non-object `dist`, missing or
non-string `tarball`, empty tarballs, URLs on which `url.Parse`
errors, and URLs whose parsed path is empty (opaque like `mailto:`, or
authority-only) are skipped silently; and at the response level an
unparseable cached JSON yields `400 Metadata error` while a parseable
one yields 200 with the rewritten document. -/
theorem packument_rewrite_amended
    (pk versionsFields : List (String × Json))
    (npmBase dirRoot key scheme host rawPath accept query : String)
    (fs : String → Option String) (metaRead : CacheMeta) (env : CondEnv)
    (parse : String → Option (List (String × Json)))
    (v : Json) (vi dist : List (String × Json)) (t p q : String) :
    (∀ k0 j, k0 ≠ "versions" →
      ((k0, j) ∈ (rewriteNpmTarballsJ pk (scheme ++ "://" ++ host) key).1 ↔ (k0, j) ∈ pk)) ∧
    (lookupJ pk "versions" = some (Json.obj versionsFields) →
      lookupJ (rewriteNpmTarballsJ pk (scheme ++ "://" ++ host) key).1 "versions" =
        some (Json.obj (versionsFields.map
          (fun kv => (kv.1, (rewriteVersionEntry (scheme ++ "://" ++ host) key kv.2).1))))) ∧
    (lookupJ vi "dist" = some (Json.obj dist) →
      lookupJ dist "tarball" = some (Json.str t) →
      t ≠ "" → parseURLPathQuery t = some (p, q) → p ≠ "" →
      rewriteVersionEntry (scheme ++ "://" ++ host) key (Json.obj vi) =
        (Json.obj (setJ vi "dist" (Json.obj (setJ dist "tarball"
          (Json.str ((scheme ++ "://" ++ host) ++ "/npm/" ++ key ++
            (if q ≠ "" then p ++ "?" ++ q else p)))))), true)) ∧
    ((∀ f, v ≠ Json.obj f) →
      rewriteVersionEntry (scheme ++ "://" ++ host) key v = (v, false)) ∧
    (lookupJ vi "dist" = none →
      rewriteVersionEntry (scheme ++ "://" ++ host) key (Json.obj vi) = (Json.obj vi, false)) ∧
    (∀ d, lookupJ vi "dist" = some d → (∀ f, d ≠ Json.obj f) →
      rewriteVersionEntry (scheme ++ "://" ++ host) key (Json.obj vi) = (Json.obj vi, false)) ∧
    (lookupJ vi "dist" = some (Json.obj dist) → lookupJ dist "tarball" = none →
      rewriteVersionEntry (scheme ++ "://" ++ host) key (Json.obj vi) = (Json.obj vi, false)) ∧
    (∀ tb, lookupJ vi "dist" = some (Json.obj dist) →
      lookupJ dist "tarball" = some tb → (∀ s, tb ≠ Json.str s) →
      rewriteVersionEntry (scheme ++ "://" ++ host) key (Json.obj vi) = (Json.obj vi, false)) ∧
    (lookupJ vi "dist" = some (Json.obj dist) →
      lookupJ dist "tarball" = some (Json.str "") →
      rewriteVersionEntry (scheme ++ "://" ++ host) key (Json.obj vi) = (Json.obj vi, false)) ∧
    (lookupJ vi "dist" = some (Json.obj dist) →
      lookupJ dist "tarball" = some (Json.str t) → t ≠ "" →
      parseURLPathQuery t = none →
      rewriteVersionEntry (scheme ++ "://" ++ host) key (Json.obj vi) = (Json.obj vi, false)) ∧
    (lookupJ vi "dist" = some (Json.obj dist) →
      lookupJ dist "tarball" = some (Json.str t) → t ≠ "" →
      parseURLPathQuery t = some ("", q) →
      rewriteVersionEntry (scheme ++ "://" ++ host) key (Json.obj vi) = (Json.obj vi, false)) ∧
    (¬ npmPackageName rawPath = "" →
      ((downloadFileConditional env (npmDataFile dirRoot key rawPath accept query)).1.isErr &&
        !(fs (npmDataFile dirRoot key rawPath accept query)).isSome) = false →
      ∀ payload, applyFsOps fs
          (npmMetadataRespond npmBase dirRoot key scheme host rawPath accept query fs metaRead env parse).fsTrace
          (npmDataFile dirRoot key rawPath accept query) = some payload →
        (parse payload = none →
          (npmMetadataRespond npmBase dirRoot key scheme host rawPath accept query fs metaRead env parse).status = 400 ∧
          (npmMetadataRespond npmBase dirRoot key scheme host rawPath accept query fs metaRead env parse).body =
            Body.text "Metadata error") ∧
        (∀ pk2, parse payload = some pk2 →
          (npmMetadataRespond npmBase dirRoot key scheme host rawPath accept query fs metaRead env parse).status = 200 ∧
          (npmMetadataRespond npmBase dirRoot key scheme host rawPath accept query fs metaRead env parse).body =
            Body.jsonDoc (Json.obj (rewriteNpmTarballsJ pk2 (scheme ++ "://" ++ host) key).1))) := by
  have hskips := rewriteVersionEntry_skips (scheme ++ "://" ++ host) key v vi dist t q
  refine ⟨rewriteNpmTarballsJ_mem_ne pk (scheme ++ "://" ++ host) key,
    rewriteNpmTarballsJ_versions pk versionsFields (scheme ++ "://" ++ host) key,
    rewriteVersionEntry_hit (scheme ++ "://" ++ host) key vi dist t p q,
    hskips.1, hskips.2.1, hskips.2.2.1, hskips.2.2.2.1, hskips.2.2.2.2.1,
    hskips.2.2.2.2.2.1, hskips.2.2.2.2.2.2.1, hskips.2.2.2.2.2.2.2, ?_⟩
  intro hp herr payload happ
  obtain ⟨cs, call, metaW, trAll, heq⟩ := npmMetadataRespond_eq_readServe
    npmBase dirRoot key scheme host rawPath accept query fs metaRead env parse hp herr
  rw [heq] at happ ⊢
  rw [(npmReadServe_fields cs call metaW trAll
    (npmDataFile dirRoot key rawPath accept query) ((npmAcceptHeader accept).2)
    (scheme ++ "://" ++ host) key fs parse).2.2.2] at happ
  constructor
  · intro hpar
    exact npmReadServe_parse_fail cs call metaW trAll _ _ _ _ fs parse payload happ hpar
  · intro pk2 hpar
    exact npmReadServe_parse_ok cs call metaW trAll _ _ _ _ fs parse payload pk2 happ hpar

/-- Witness for the amended C5: a plain URL is rewritten; a
percent-escaped path is rewritten with the decoded path; a malformed
escape and an opaque URL are skipped. -/
theorem packument_rewrite_amended_witness :
    lookupJ [("dist", Json.obj [("tarball", Json.str "http://up/p/x.tgz")])] "dist" =
      some (Json.obj [("tarball", Json.str "http://up/p/x.tgz")]) ∧
    parseURLPathQuery "http://up/p/x.tgz" = some ("/p/x.tgz", "") ∧
    rewriteVersionEntry ("http" ++ "://" ++ "h") "k"
        (Json.obj [("dist", Json.obj [("tarball", Json.str "http://up/p/x.tgz")])]) =
      (Json.obj [("dist", Json.obj [("tarball", Json.str "http://h/npm/k/p/x.tgz")])], true) ∧
    parseURLPathQuery "https://up/a%2Fb.tgz" = some ("/a/b.tgz", "") ∧
    rewriteVersionEntry ("http" ++ "://" ++ "h") "k"
        (Json.obj [("dist", Json.obj [("tarball", Json.str "https://up/a%2Fb.tgz")])]) =
      (Json.obj [("dist", Json.obj [("tarball", Json.str "http://h/npm/k/a/b.tgz")])], true) ∧
    parseURLPathQuery "http://up/%zz" = none ∧
    rewriteVersionEntry ("http" ++ "://" ++ "h") "k"
        (Json.obj [("dist", Json.obj [("tarball", Json.str "http://up/%zz")])]) =
      (Json.obj [("dist", Json.obj [("tarball", Json.str "http://up/%zz")])], false) ∧
    parseURLPathQuery "mailto:a@b" = some ("", "") ∧
    rewriteVersionEntry ("http" ++ "://" ++ "h") "k"
        (Json.obj [("dist", Json.obj [("tarball", Json.str "mailto:a@b")])]) =
      (Json.obj [("dist", Json.obj [("tarball", Json.str "mailto:a@b")])], false) := by
  have h1 := packument_rewrite_amended [] [] "https://reg" "d" "k" "http" "h" "pkg" "" ""
    (fun _ => none) ⟨"", ""⟩
    ⟨HttpOutcome.response ⟨304, "", "", ""⟩, 0, 0, true, true, true, true, 0, false, 0, true, true, true, true⟩
    (fun _ => none)
    Json.null
    [("dist", Json.obj [("tarball", Json.str "http://up/p/x.tgz")])]
    [("tarball", Json.str "http://up/p/x.tgz")]
    "http://up/p/x.tgz" "/p/x.tgz" ""
  have h2 := packument_rewrite_amended [] [] "https://reg" "d" "k" "http" "h" "pkg" "" ""
    (fun _ => none) ⟨"", ""⟩
    ⟨HttpOutcome.response ⟨304, "", "", ""⟩, 0, 0, true, true, true, true, 0, false, 0, true, true, true, true⟩
    (fun _ => none)
    Json.null
    [("dist", Json.obj [("tarball", Json.str "https://up/a%2Fb.tgz")])]
    [("tarball", Json.str "https://up/a%2Fb.tgz")]
    "https://up/a%2Fb.tgz" "/a/b.tgz" ""
  have h3 := packument_rewrite_amended [] [] "https://reg" "d" "k" "http" "h" "pkg" "" ""
    (fun _ => none) ⟨"", ""⟩
    ⟨HttpOutcome.response ⟨304, "", "", ""⟩, 0, 0, true, true, true, true, 0, false, 0, true, true, true, true⟩
    (fun _ => none)
    Json.null
    [("dist", Json.obj [("tarball", Json.str "http://up/%zz")])]
    [("tarball", Json.str "http://up/%zz")]
    "http://up/%zz" "" ""
  have h4 := packument_rewrite_amended [] [] "https://reg" "d" "k" "http" "h" "pkg" "" ""
    (fun _ => none) ⟨"", ""⟩
    ⟨HttpOutcome.response ⟨304, "", "", ""⟩, 0, 0, true, true, true, true, 0, false, 0, true, true, true, true⟩
    (fun _ => none)
    Json.null
    [("dist", Json.obj [("tarball", Json.str "mailto:a@b")])]
    [("tarball", Json.str "mailto:a@b")]
    "mailto:a@b" "" ""
  refine ⟨rfl, by decide, ?_, by decide, ?_, by decide, ?_, by decide, ?_⟩
  · exact (h1.2.2.1 rfl rfl (by decide) (by decide) (by decide)).trans (by rfl)
  · exact (h2.2.2.1 rfl rfl (by decide) (by decide) (by decide)).trans (by rfl)
  · exact h3.2.2.2.2.2.2.2.2.2.1 rfl rfl (by decide) (by decide)
  · exact h4.2.2.2.2.2.2.2.2.2.2.1 rfl rfl (by decide) (by decide)

end Hub
